import Mathlib

/-!
Verification of the agent orchestration engine (royzheng-agents).

This file shallowly embeds the TypeScript sources under `src/` into Lean:
pure functions become Lean functions, the stateful orchestration flow becomes
explicit state passing over oracles for the external collaborators
(log store, language-model service, tool gateway, knowledge-graph service).

Serialization convention: values that the TypeScript code produces with
JSON.stringify and consumes with JSON.parse are modelled as `Json` trees
(JSON.stringify and JSON.parse are mutually inverse between JSON-safe values
and their serialized texts, so the tree is a faithful stand-in for the text).
The one place a raw string is parsed as JSON at runtime — tool-call argument
payloads — is modelled with an executable JSON text parser (`parseJson`).
-/

/-- JSON values. Numeric literals are restricted to integers: every number
appearing in this codebase's payloads (timestamps, token counts, ids) is an
integer. -/
inductive Json where
  | null
  | bool (b : Bool)
  | num (n : Int)
  | str (s : String)
  | arr (elems : List Json)
  | obj (fields : List (String × Json))

mutual

/-- Decidable equality for `Json` (the automatic deriving does not handle the
nested `List` occurrences). -/
def Json.deq : (a b : Json) → Decidable (a = b)
  | .null, .null => isTrue rfl
  | .bool a, .bool b =>
    match decEq a b with
    | isTrue h => isTrue (by rw [h])
    | isFalse h => isFalse (by intro hh; cases hh; exact h rfl)
  | .num a, .num b =>
    match decEq a b with
    | isTrue h => isTrue (by rw [h])
    | isFalse h => isFalse (by intro hh; cases hh; exact h rfl)
  | .str a, .str b =>
    match decEq a b with
    | isTrue h => isTrue (by rw [h])
    | isFalse h => isFalse (by intro hh; cases hh; exact h rfl)
  | .arr a, .arr b =>
    match Json.deqList a b with
    | isTrue h => isTrue (by rw [h])
    | isFalse h => isFalse (by intro hh; cases hh; exact h rfl)
  | .obj a, .obj b =>
    match Json.deqFields a b with
    | isTrue h => isTrue (by rw [h])
    | isFalse h => isFalse (by intro hh; cases hh; exact h rfl)
  | .null, .bool _ => isFalse (by intro h; cases h)
  | .null, .num _ => isFalse (by intro h; cases h)
  | .null, .str _ => isFalse (by intro h; cases h)
  | .null, .arr _ => isFalse (by intro h; cases h)
  | .null, .obj _ => isFalse (by intro h; cases h)
  | .bool _, .null => isFalse (by intro h; cases h)
  | .bool _, .num _ => isFalse (by intro h; cases h)
  | .bool _, .str _ => isFalse (by intro h; cases h)
  | .bool _, .arr _ => isFalse (by intro h; cases h)
  | .bool _, .obj _ => isFalse (by intro h; cases h)
  | .num _, .null => isFalse (by intro h; cases h)
  | .num _, .bool _ => isFalse (by intro h; cases h)
  | .num _, .str _ => isFalse (by intro h; cases h)
  | .num _, .arr _ => isFalse (by intro h; cases h)
  | .num _, .obj _ => isFalse (by intro h; cases h)
  | .str _, .null => isFalse (by intro h; cases h)
  | .str _, .bool _ => isFalse (by intro h; cases h)
  | .str _, .num _ => isFalse (by intro h; cases h)
  | .str _, .arr _ => isFalse (by intro h; cases h)
  | .str _, .obj _ => isFalse (by intro h; cases h)
  | .arr _, .null => isFalse (by intro h; cases h)
  | .arr _, .bool _ => isFalse (by intro h; cases h)
  | .arr _, .num _ => isFalse (by intro h; cases h)
  | .arr _, .str _ => isFalse (by intro h; cases h)
  | .arr _, .obj _ => isFalse (by intro h; cases h)
  | .obj _, .null => isFalse (by intro h; cases h)
  | .obj _, .bool _ => isFalse (by intro h; cases h)
  | .obj _, .num _ => isFalse (by intro h; cases h)
  | .obj _, .str _ => isFalse (by intro h; cases h)
  | .obj _, .arr _ => isFalse (by intro h; cases h)

/-- Decidable equality for lists of `Json`. -/
def Json.deqList : (a b : List Json) → Decidable (a = b)
  | [], [] => isTrue rfl
  | x :: xs, y :: ys =>
    match Json.deq x y, Json.deqList xs ys with
    | isTrue h1, isTrue h2 => isTrue (by rw [h1, h2])
    | isFalse h1, _ => isFalse (by intro hh; cases hh; exact h1 rfl)
    | _, isFalse h2 => isFalse (by intro hh; cases hh; exact h2 rfl)
  | [], _ :: _ => isFalse (by intro h; cases h)
  | _ :: _, [] => isFalse (by intro h; cases h)

/-- Decidable equality for JSON object field lists. -/
def Json.deqFields : (a b : List (String × Json)) → Decidable (a = b)
  | [], [] => isTrue rfl
  | (k, v) :: xs, (l, w) :: ys =>
    match decEq k l, Json.deq v w, Json.deqFields xs ys with
    | isTrue h0, isTrue h1, isTrue h2 => isTrue (by rw [h0, h1, h2])
    | isFalse h0, _, _ => isFalse (by intro hh; cases hh; exact h0 rfl)
    | _, isFalse h1, _ => isFalse (by intro hh; cases hh; exact h1 rfl)
    | _, _, isFalse h2 => isFalse (by intro hh; cases hh; exact h2 rfl)
  | [], _ :: _ => isFalse (by intro h; cases h)
  | _ :: _, [] => isFalse (by intro h; cases h)

end

instance : DecidableEq Json := Json.deq

/-- Field lookup on a JSON object, modelling JavaScript `x?.field`:
`none` stands for `undefined` (missing field or non-object receiver). -/
def Json.getField : Json → String → Option Json
  | .obj fields, k => fields.lookup k
  | _, _ => none

/-- JavaScript truthiness of a JSON value. -/
def jsTruthy : Json → Bool
  | .null => false
  | .bool b => b
  | .num n => n != 0
  | .str s => s != ""
  | .arr _ => true
  | .obj _ => true

/-- JavaScript truthiness where `none` is `undefined`. -/
def jsTruthyOpt : Option Json → Bool
  | none => false
  | some j => jsTruthy j

/-- Whitespace skipping for the JSON text parser. -/
def skipWs : List Char → List Char
  | c :: cs => if c = ' ' ∨ c = '\n' ∨ c = '\t' ∨ c = '\r' then skipWs cs else c :: cs
  | [] => []

/-- Parse the remainder of a JSON string literal (after the opening quote),
returning the decoded characters and the rest of the input. Handles the
single-character escapes; `\u` escapes are out of scope (none occur in the
payloads this engine produces). -/
def parseStrChars : List Char → Option (List Char × List Char)
  | [] => none
  | '"' :: rest => some ([], rest)
  | '\\' :: e :: rest =>
    (match e with
      | '"' => some '"'
      | '\\' => some '\\'
      | '/' => some '/'
      | 'n' => some '\n'
      | 't' => some '\t'
      | 'r' => some '\r'
      | 'b' => some (Char.ofNat 8)
      | 'f' => some (Char.ofNat 12)
      | _ => none).bind
      (fun c => (parseStrChars rest).map
        (fun (p : List Char × List Char) => (c :: p.1, p.2)))
  | c :: rest =>
    (parseStrChars rest).map (fun (p : List Char × List Char) => (c :: p.1, p.2))

/-- Accumulate a run of decimal digits into a natural number. -/
def parseDigitsAcc (acc : Nat) : List Char → Nat × List Char
  | c :: cs =>
    if c.isDigit then parseDigitsAcc (acc * 10 + (c.toNat - '0'.toNat)) cs
    else (acc, c :: cs)
  | [] => (acc, [])

/-- Parse a JSON integer literal (optional minus sign, then digits).
Fractional and exponent forms are out of scope: a trailing `.` or `e` is left
in the input and makes the surrounding parse fail, so such texts are treated
as unparsable — every number this engine serializes is an integer. -/
def parseNum : List Char → Option (Json × List Char)
  | '-' :: c :: cs =>
    if c.isDigit then
      let p := parseDigitsAcc (c.toNat - '0'.toNat) cs
      some (.num (-(p.1 : Int)), p.2)
    else none
  | c :: cs =>
    if c.isDigit then
      let p := parseDigitsAcc (c.toNat - '0'.toNat) cs
      some (.num (p.1 : Int), p.2)
    else none
  | [] => none

mutual

/-- Recursive-descent JSON value parser with explicit fuel (the fuel strictly
decreases on every recursive call; `parseJson` supplies enough fuel for any
input this engine handles). Models JavaScript `JSON.parse`; `none` stands for
a thrown SyntaxError. -/
def parseJ : Nat → List Char → Option (Json × List Char)
  | 0, _ => none
  | fuel + 1, cs =>
    match skipWs cs with
    | 'n' :: 'u' :: 'l' :: 'l' :: rest => some (.null, rest)
    | 't' :: 'r' :: 'u' :: 'e' :: rest => some (.bool true, rest)
    | 'f' :: 'a' :: 'l' :: 's' :: 'e' :: rest => some (.bool false, rest)
    | '"' :: rest => (parseStrChars rest).map (fun p => (.str (String.mk p.1), p.2))
    | '[' :: rest =>
      (match skipWs rest with
       | ']' :: rest1 => some (.arr [], rest1)
       | _ => (parseArrElems fuel rest).map (fun p => (.arr p.1, p.2)))
    | '{' :: rest =>
      (match skipWs rest with
       | '}' :: rest1 => some (.obj [], rest1)
       | _ => (parseObjFields fuel rest).map (fun p => (.obj p.1, p.2)))
    | rest => parseNum rest

/-- Parse the comma-separated elements of a JSON array, up to and including
the closing bracket. -/
def parseArrElems : Nat → List Char → Option (List Json × List Char)
  | 0, _ => none
  | fuel + 1, cs =>
    match parseJ fuel cs with
    | none => none
    | some (v, rest) =>
      match skipWs rest with
      | ',' :: rest1 => (parseArrElems fuel rest1).map (fun p => (v :: p.1, p.2))
      | ']' :: rest1 => some ([v], rest1)
      | _ => none

/-- Parse the comma-separated fields of a JSON object, up to and including
the closing brace. -/
def parseObjFields : Nat → List Char → Option (List (String × Json) × List Char)
  | 0, _ => none
  | fuel + 1, cs =>
    match skipWs cs with
    | '"' :: rest =>
      (match parseStrChars rest with
       | none => none
       | some (key, rest1) =>
         match skipWs rest1 with
         | ':' :: rest2 =>
           (match parseJ fuel rest2 with
            | none => none
            | some (v, rest3) =>
              match skipWs rest3 with
              | ',' :: rest4 =>
                (parseObjFields fuel rest4).map
                  (fun p => ((String.mk key, v) :: p.1, p.2))
              | '}' :: rest4 => some ([(String.mk key, v)], rest4)
              | _ => none)
         | _ => none)
    | _ => none

end

/-- Model of JavaScript `JSON.parse` on a whole text: `some` is the parsed
value, `none` a thrown SyntaxError. -/
def parseJson (s : String) : Option Json :=
  match parseJ (2 * (s.length + 1)) s.data with
  | some (j, rest) => if skipWs rest = [] then some j else none
  | none => none

/-- Decidable equality for `Except` results (not provided by the core
library). -/
def exceptDecEq {e a : Type} [DecidableEq e] [DecidableEq a] :
    (x y : Except e a) → Decidable (x = y)
  | .ok u, .ok v =>
    match decEq u v with
    | isTrue h => isTrue (by rw [h])
    | isFalse h => isFalse (by intro hh; cases hh; exact h rfl)
  | .error u, .error v =>
    match decEq u v with
    | isTrue h => isTrue (by rw [h])
    | isFalse h => isFalse (by intro hh; cases hh; exact h rfl)
  | .ok _, .error _ => isFalse (by intro h; cases h)
  | .error _, .ok _ => isFalse (by intro h; cases h)

instance {e a : Type} [DecidableEq e] [DecidableEq a] : DecidableEq (Except e a) :=
  exceptDecEq

/-!
Data model of conversation turns, translated from the type definitions in
src/clients/llm.ts and the objects the orchestrator constructs.
-/

/-- Image reference payload (src/clients/llm.ts `ImageUrl`). -/
structure ImageUrl where
  url : String
  format : String
deriving DecidableEq

/-- Audio payload (src/clients/llm.ts `InputAudio`). -/
structure InputAudio where
  data : String
  format : String
deriving DecidableEq

/-- One content entry of a system or user message (src/clients/llm.ts
`Content`): a union discriminated by `type`, carrying exactly the payload
named by the tag — which is how every construction site in the code builds
it. -/
inductive Content where
  | text (text : String)
  | image_url (image_url : ImageUrl)
  | input_audio (input_audio : InputAudio)
deriving DecidableEq

/-- A model-issued tool-call request (src/clients/llm.ts `ToolCall`);
`arguments` is the raw JSON-encoded argument text, kept as a string exactly
as the code does. -/
structure ToolCall where
  id : String
  index : Int
  name : String
  arguments : String
deriving DecidableEq

/-- A reasoning block of an assistant message (src/clients/llm.ts
`ThinkingBlock`); `signature` is the extra field that
`sanitizeResponseMessage` strips. -/
structure ThinkingBlock where
  thinking : String
  signature : Option String := none
deriving DecidableEq

/-- Assistant message payload (src/clients/llm.ts `AssistantMessage`). The
`role` field is the literal "assistant" in the source interface and is left
implicit here. -/
structure AssistantMessage where
  content : Option String
  tool_calls : Option (List ToolCall) := none
  thinking_blocks : Option (List ThinkingBlock) := none
deriving DecidableEq

/-- A conversation turn (src/clients/llm.ts `Message`), the union of the four
role-tagged message interfaces. `tool` content is the serialized result array
(a string in the source, modelled as its `Json` tree per the convention at
the top of this file). -/
inductive Message where
  | system (content : List Content)
  | user (content : List Content)
  | assistant (msg : AssistantMessage)
  | tool (content : Json) (tool_call_id : String)
deriving DecidableEq

/-- The role tag of a message, as serialized in its `role` field. -/
def Message.role : Message → String
  | .system _ => "system"
  | .user _ => "user"
  | .assistant _ => "assistant"
  | .tool _ _ => "tool"

/-- JSON image of a content entry under JSON.stringify. -/
def encodeContent : Content → Json
  | .text t => .obj [("type", .str "text"), ("text", .str t)]
  | .image_url i => .obj [("type", .str "image_url"),
      ("image_url", .obj [("url", .str i.url), ("format", .str i.format)])]
  | .input_audio a => .obj [("type", .str "input_audio"),
      ("input_audio", .obj [("data", .str a.data), ("format", .str a.format)])]

/-- JSON image of a tool-call request under JSON.stringify. -/
def encodeToolCall (c : ToolCall) : Json :=
  .obj [("id", .str c.id), ("index", .num c.index), ("type", .str "function"),
    ("function", .obj [("name", .str c.name), ("arguments", .str c.arguments)])]

/-- JSON image of a thinking block under JSON.stringify (the `signature`
field is omitted when absent, as JSON.stringify drops undefined fields). -/
def encodeThinkingBlock (b : ThinkingBlock) : Json :=
  .obj ([("type", .str "thinking"), ("thinking", .str b.thinking)] ++
    (match b.signature with
     | none => []
     | some s => [("signature", .str s)]))

/-- JSON image of an assistant message under JSON.stringify: optional fields
are omitted when undefined, `content` is null or a string. -/
def encodeAssistant (m : AssistantMessage) : Json :=
  .obj ([("role", .str "assistant"),
    ("content", match m.content with | none => .null | some s => .str s)] ++
    (match m.tool_calls with
     | none => []
     | some l => [("tool_calls", .arr (l.map encodeToolCall))]) ++
    (match m.thinking_blocks with
     | none => []
     | some l => [("thinking_blocks", .arr (l.map encodeThinkingBlock))]))

/-- JSON image of a conversation turn under JSON.stringify, i.e. the value
the engine stores in the log row's `message` column. -/
def encodeMessage : Message → Json
  | .system c => .obj [("role", .str "system"), ("content", .arr (c.map encodeContent))]
  | .user c => .obj [("role", .str "user"), ("content", .arr (c.map encodeContent))]
  | .assistant m => encodeAssistant m
  | .tool content id => .obj [("role", .str "tool"), ("content", content),
      ("tool_call_id", .str id)]

/-- Read back a content entry from its JSON image. -/
def decodeContent (j : Json) : Option Content :=
  match j.getField "type" with
  | some (.str "text") =>
    (match j.getField "text" with
     | some (.str t) => some (.text t)
     | _ => none)
  | some (.str "image_url") =>
    (match j.getField "image_url" with
     | some i =>
       (match i.getField "url", i.getField "format" with
        | some (.str u), some (.str f) => some (.image_url ⟨u, f⟩)
        | _, _ => none)
     | none => none)
  | some (.str "input_audio") =>
    (match j.getField "input_audio" with
     | some a =>
       (match a.getField "data", a.getField "format" with
        | some (.str d), some (.str f) => some (.input_audio ⟨d, f⟩)
        | _, _ => none)
     | none => none)
  | _ => none

/-- Decode every element of a JSON list, failing if any element fails. -/
def decodeList {α : Type} (dec : Json → Option α) : List Json → Option (List α)
  | [] => some []
  | j :: js =>
    match dec j with
    | none => none
    | some a =>
      match decodeList dec js with
      | none => none
      | some as => some (a :: as)

/-- Read back a tool-call request from its JSON image. -/
def decodeToolCall (j : Json) : Option ToolCall :=
  match j.getField "id", j.getField "index", j.getField "function" with
  | some (.str i), some (.num ix), some fn =>
    (match fn.getField "name", fn.getField "arguments" with
     | some (.str n), some (.str a) => some ⟨i, ix, n, a⟩
     | _, _ => none)
  | _, _, _ => none

/-- Read back a thinking block from its JSON image. -/
def decodeThinkingBlock (j : Json) : Option ThinkingBlock :=
  match j.getField "thinking" with
  | some (.str t) =>
    (match j.getField "signature" with
     | none => some ⟨t, none⟩
     | some (.str s) => some ⟨t, some s⟩
     | some _ => none)
  | _ => none

/-- Read back an assistant message from its JSON image. -/
def decodeAssistant (j : Json) : Option AssistantMessage :=
  (match j.getField "content" with
   | some .null => some none
   | some (.str s) => some (some s)
   | _ => none).bind (fun content =>
  (match j.getField "tool_calls" with
   | none => some none
   | some (.arr l) => (decodeList decodeToolCall l).map some
   | some _ => none).bind (fun tool_calls =>
  (match j.getField "thinking_blocks" with
   | none => some none
   | some (.arr l) => (decodeList decodeThinkingBlock l).map some
   | some _ => none).map (fun thinking_blocks =>
  ⟨content, tool_calls, thinking_blocks⟩)))

/-- Read back a conversation turn from its JSON image (the inverse of
`encodeMessage` on well-formed rows). -/
def decodeMessage (j : Json) : Option Message :=
  match j.getField "role" with
  | some (.str "system") =>
    (match j.getField "content" with
     | some (.arr l) => (decodeList decodeContent l).map .system
     | _ => none)
  | some (.str "user") =>
    (match j.getField "content" with
     | some (.arr l) => (decodeList decodeContent l).map .user
     | _ => none)
  | some (.str "assistant") => (decodeAssistant j).map .assistant
  | some (.str "tool") =>
    (match j.getField "content", j.getField "tool_call_id" with
     | some c, some (.str i) => some (.tool c i)
     | _, _ => none)
  | _ => none

theorem decodeContent_encode (c : Content) : decodeContent (encodeContent c) = some c := by
  cases c <;> rfl

theorem decodeList_map_encode {α : Type} (dec : Json → Option α) (enc : α → Json)
    (h : ∀ a, dec (enc a) = some a) (l : List α) :
    decodeList dec (l.map enc) = some l := by
  induction l with
  | nil => rfl
  | cons a as ih => simp [decodeList, h, ih]

theorem decodeToolCall_encode (c : ToolCall) : decodeToolCall (encodeToolCall c) = some c := by
  cases c; rfl

theorem decodeThinkingBlock_encode (b : ThinkingBlock) :
    decodeThinkingBlock (encodeThinkingBlock b) = some b := by
  cases b with
  | mk t s => cases s <;> rfl

theorem decodeAssistant_encode (m : AssistantMessage) :
    decodeAssistant (encodeAssistant m) = some m := by
  cases m with
  | mk content tool_calls thinking_blocks =>
    cases content <;> cases tool_calls <;> cases thinking_blocks <;>
      simp [decodeAssistant, encodeAssistant, Json.getField, List.lookup,
        decodeList_map_encode decodeToolCall encodeToolCall decodeToolCall_encode,
        decodeList_map_encode decodeThinkingBlock encodeThinkingBlock decodeThinkingBlock_encode]

/-- Round trip at the level of one turn: parsing the stored `message` column
of a row the engine wrote recovers the turn that was persisted. -/
theorem decodeMessage_encode (m : Message) : decodeMessage (encodeMessage m) = some m := by
  cases m with
  | system c =>
    simp [decodeMessage, encodeMessage, Json.getField, List.lookup,
      decodeList_map_encode decodeContent encodeContent decodeContent_encode]
  | user c =>
    simp [decodeMessage, encodeMessage, Json.getField, List.lookup,
      decodeList_map_encode decodeContent encodeContent decodeContent_encode]
  | assistant a =>
    have h := decodeAssistant_encode a
    simp [decodeMessage, encodeMessage, encodeAssistant, Json.getField, List.lookup] at h ⊢
    cases a with
    | mk content tool_calls thinking_blocks =>
      cases content <;> cases tool_calls <;> cases thinking_blocks <;>
        simp_all [encodeAssistant, Json.getField, List.lookup]
  | tool c i => rfl

/-!
Conversation log store, translated from src/clients/turso.ts.
-/

/-- The parameters of one `logConversation` call (src/clients/turso.ts),
i.e. what the engine hands to the log store for one row. -/
structure LogParams where
  model : String
  role : String
  finish_reason : Option String := none
  completion_tokens : Int := 0
  prompt_tokens : Int := 0
  total_tokens : Int := 0
  user_id : Option String := none
  chat_id : Option String := none
  session_id : Option String := none
  agent_id : Option String := none
  message : Json
deriving DecidableEq

/-- One row of the `conversation_history` table as inserted by
`logConversation`. -/
structure LogRow where
  id : String
  model : String
  finish_reason : String
  role : String
  completion_tokens : Int
  prompt_tokens : Int
  total_tokens : Int
  user_id : Option String
  chat_id : Option String
  session_id : Option String
  agent_id : Option String
  timestamp : Int
  message : Json
deriving DecidableEq

/-- TursoClient.logConversation (src/clients/turso.ts, lines 21-80): builds
the inserted row from the call parameters. The generated uuid and the
second-resolution wall clock are passed explicitly (`id`, `ts`). -/
def logConversation (id : String) (ts : Int) (p : LogParams) : LogRow :=
  { id := id
    model := p.model
    finish_reason := p.finish_reason.getD ""
    role := p.role
    completion_tokens := p.completion_tokens
    prompt_tokens := p.prompt_tokens
    total_tokens := p.total_tokens
    user_id := p.user_id
    chat_id := p.chat_id
    session_id := p.session_id
    agent_id := p.agent_id
    timestamp := ts
    message := p.message }

/-- Timestamps are nondecreasing along the list: the only ordering that
`ORDER BY timestamp ASC` guarantees for a query result. -/
def tsMono : List LogRow → Bool
  | [] => true
  | [_] => true
  | a :: b :: rest => a.timestamp ≤ b.timestamp && tsMono (b :: rest)

/-- Timestamps are strictly increasing along the list. -/
def tsStrict : List LogRow → Bool
  | [] => true
  | [_] => true
  | a :: b :: rest => a.timestamp < b.timestamp && tsStrict (b :: rest)

/-- TursoClient.getLatestConversation (src/clients/turso.ts, lines 82-112)
as a relation between the table and an admissible query result `out`: the
SQL fixes no order among equal timestamps, so the read is not a function of
the table. The inner subquery (`ORDER BY timestamp DESC LIMIT 1`) selects
some row of the user with maximal timestamp — any of them when timestamps
tie — and the outer query returns the rows whose `session_id` equals that
row\'s (matching nothing when it is NULL, by SQL three-valued
`session_id = NULL`) in some order that is nondecreasing in timestamp — any
such permutation is admissible. A user with no rows yields the empty
result. -/
def getLatestConversation (table : List LogRow) (userId : String)
    (out : List LogRow) : Prop :=
  (table.filter (fun r => r.user_id == some userId) = [] ∧ out = [])
  ∨ ∃ b ∈ table.filter (fun r => r.user_id == some userId),
      (∀ r ∈ table.filter (fun r => r.user_id == some userId), r.timestamp ≤ b.timestamp)
      ∧ out.Perm (table.filter (fun r => r.session_id.isSome && r.session_id == b.session_id))
      ∧ tsMono out = true

instance (table : List LogRow) (userId : String) (out : List LogRow) :
    Decidable (getLatestConversation table userId out) := by
  unfold getLatestConversation
  infer_instance

/-- The orchestrator's history-replay loop (src/orchestrator/index.ts, lines
340-354 and 489-503): parse each row's `message` column and append it to the
conversation; a row whose payload does not parse as a conversation turn is
logged and skipped. -/
def replayRows (rows : List LogRow) : List Message :=
  rows.filterMap (fun r => decodeMessage r.message)

/-!
The Command Extractor, translated from src/utils/messageParser.ts
(`parseMessage`).
-/

/-- Result record of `parseMessage`. -/
structure ParsedMessage where
  cleanText : String
  sessionCommand : Option String := none
  agent_idOverride : Option String := none
deriving DecidableEq

/-- Split the input at the first `]`: returns the characters before it and
the remainder beginning with `]` (or an empty remainder if there is none). -/
def splitAtRB : List Char → List Char × List Char
  | [] => ([], [])
  | c :: cs =>
    if c = ']' then ([], c :: cs)
    else
      let p := splitAtRB cs
      (c :: p.1, p.2)

theorem splitAtRB_snd_length (l : List Char) : (splitAtRB l).2.length ≤ l.length := by
  induction l with
  | nil => simp [splitAtRB]
  | cons c cs ih =>
    by_cases h : c = ']' <;> simp [splitAtRB, h] <;> omega

/-- All matches of the global regex over bracket groups used by
`parseMessage`, with explicit fuel (one unit per match attempt; the input
shrinks on every recursive call, so `findGroups` always supplies enough):
a match runs from a `[` to the first following `]` with at least one
character in between (the regex body excludes `]` and requires one or more
characters); scanning resumes after the match; a `[` followed directly by
`]` matches nothing and scanning continues inside it; a `[` with no later
`]` ends the scan. Returns the group insides, without the brackets.
`(splitAtRB cs).2` is empty or starts with `]` by construction, so matching
it against cons is matching against the closing bracket. -/
def findGroupsF : Nat → List Char → List (List Char)
  | 0, _ => []
  | fuel + 1, l =>
    match l with
    | [] => []
    | c :: cs =>
      if c = '[' then
        match splitAtRB cs with
        | (_, []) => []
        | (inside, _ :: after) =>
          if inside = [] then findGroupsF fuel cs
          else inside :: findGroupsF fuel after
      else findGroupsF fuel cs

/-- Bracket-group matches of the text (see `findGroupsF`). -/
def findGroups (l : List Char) : List (List Char) :=
  findGroupsF (l.length + 1) l

theorem findGroupsF_congr :
    ∀ (n f1 f2 : Nat) (l : List Char), l.length < f1 → l.length < f2 →
      l.length ≤ n → findGroupsF f1 l = findGroupsF f2 l := by
  intro n
  induction n with
  | zero =>
    intro f1 f2 l h1 h2 hn
    have hl : l = [] := List.length_eq_zero.mp (Nat.le_zero.mp hn)
    subst hl
    cases f1 with
    | zero => omega
    | succ a =>
      cases f2 with
      | zero => omega
      | succ b => rfl
  | succ n ih =>
    intro f1 f2 l h1 h2 hn
    cases f1 with
    | zero => omega
    | succ a =>
    cases f2 with
    | zero => omega
    | succ b =>
    cases l with
    | nil => rfl
    | cons c cs =>
    simp only [List.length_cons] at h1 h2 hn
    simp only [findGroupsF]
    by_cases hc : c = '['
    · simp only [hc, if_pos]
      have hlen := splitAtRB_snd_length cs
      rcases hsp : splitAtRB cs with ⟨inside, rest⟩
      rw [hsp] at hlen
      cases rest with
      | nil => rfl
      | cons r rs =>
        simp only [List.length_cons] at hlen
        by_cases hi : inside = []
        · simp only [hi, if_pos]
          exact ih a b cs (by omega) (by omega) (by omega)
        · simp only [if_neg hi]
          rw [ih a b rs (by omega) (by omega) (by omega)]
    · simp only [if_neg hc]
      exact ih a b cs (by omega) (by omega) (by omega)

/-- Strip leading whitespace characters (the left half of JavaScript
`String.prototype.trim`). -/
def trimLeftChars : List Char → List Char
  | [] => []
  | c :: cs => if c.isWhitespace then trimLeftChars cs else c :: cs

/-- Model of JavaScript `String.prototype.trim` on character lists. -/
def trimChars (l : List Char) : List Char :=
  (trimLeftChars (trimLeftChars l).reverse).reverse

/-- Model of JavaScript `String.prototype.trim`. -/
def jsTrim (s : String) : String :=
  String.mk (trimChars s.data)

/-- Model of JavaScript `String.prototype.split` with a single-character
separator (splitting an empty string yields one empty segment, as in JS). -/
def splitOnChar (sep : Char) : List Char → List (List Char)
  | [] => [[]]
  | c :: cs =>
    if c = sep then [] :: splitOnChar sep cs
    else
      match splitOnChar sep cs with
      | [] => [[c]]
      | g :: gs => (c :: g) :: gs

/-- Model of JavaScript `String.prototype.toLowerCase` on character lists
(ASCII case folding; the directive keys and control values compared by
`parseMessage` are ASCII). -/
def lowerChars (l : List Char) : List Char :=
  l.map Char.toLower

/-- Handle one `key:value` directive inside a bracket group (the inner loop
of `parseMessage`): the state is the pair (sessionCommand, agent_idOverride).
Keys and recognized control values compare case-insensitively; the agent
override keeps the value\'s original (trimmed) casing. -/
def parseDirective (st : Option String × Option String) (part : List Char) :
    Option String × Option String :=
  let segs := (splitOnChar ':' part).map trimChars
  let kRaw := segs.headD []
  let vRaw : Option (List Char) := segs[1]?
  let k := lowerChars kRaw
  let v := vRaw.map lowerChars
  if k = [] then st
  else
    let st1 :=
      if k = ['s'] ∧ (v = some ['n', 'e', 'w'] ∨ v = some ['n']) then (some "new", st.2)
      else st
    if k = ['a'] ∧ v.getD [] ≠ [] then (st1.1, some (String.mk (vRaw.getD []))) else st1

/-- Handle one bracket group: split on `;`, trim each part, and fold the
directives. -/
def processGroup (st : Option String × Option String) (inside : List Char) :
    Option String × Option String :=
  ((splitOnChar ';' inside).map trimChars).foldl parseDirective st

/-- Check the pattern against the head of the input; on a full match return
the remainder. -/
def matchesAt : List Char → List Char → Option (List Char)
  | [], rest => some rest
  | _ :: _, [] => none
  | p :: ps, c :: cs => if p = c then matchesAt ps cs else none

/-- Remove the first occurrence of `pat` (JavaScript
`text.replace(pat, \'\')` with a string pattern replaces only the first
occurrence). -/
def removeFirstSub (pat : List Char) : List Char → List Char
  | [] => []
  | c :: cs =>
    match matchesAt pat (c :: cs) with
    | some rest => rest
    | none => c :: removeFirstSub pat cs

/-- parseMessage (src/utils/messageParser.ts): scan the trimmed text for
bracketed `[key:value]` directive groups, extract the session command and
agent override, and strip each matched group from the text, trimming after
each removal. -/
def parseMessage (raw : String) : ParsedMessage :=
  let text0 := trimChars raw.data
  let groups := findGroups text0
  let st := groups.foldl processGroup (none, none)
  let cleanData := groups.foldl
    (fun t g => trimChars (removeFirstSub ('[' :: g ++ [']']) t)) text0
  ⟨String.mk cleanData, st.1, st.2⟩

/-!
The inbound event, and the Conversation Assembler's multi-modal
normalization (src/orchestrator/index.ts `convertEventToUserMessage`).
-/

/-- Modelled from the spec: the Event data model of §3 — the `models/Event.ts`
module itself is not under src/, only its consumers are. A message part is a
"tagged union {text, image-reference, audio-blob}", each carrying its payload
and, for image/audio, a format tag; the tag is the part's `type` field and
exactly the payload named by the tag is present. -/
inductive EventPart where
  | text (text : String)
  | image (url : String) (format : String)
  | audio (data : String) (format : String)
deriving DecidableEq

/-- Modelled from the spec: the optional location descriptor of an event
(the orchestrator reads its `geocode_information` text). -/
structure EventLocation where
  geocode_information : Option String := none
deriving DecidableEq

/-- Modelled from the spec: the sender descriptor of an event, with the
fields the orchestrator unpacks (lines 101-109). -/
structure EventSender where
  source : Option String := none
  is_bot : Option Bool := none
  id : Option String := none
  message_id : Option String := none
  user_id : Option String := none
  chat_id : Option String := none
  first_name : Option String := none
  last_name : Option String := none
  username : Option String := none
deriving DecidableEq

/-- Modelled from the spec: the optional metadata of an event (prior session
id, placeholder-message id, location). -/
structure EventMetadata where
  placeholder_message_id : Option Int := none
  sessionId : Option String := none
  location : Option EventLocation := none
deriving DecidableEq

/-- Modelled from the spec: one outbound recipient of the event (only its
presence matters to the orchestrator's control flow). -/
structure EventRecipient where
  channel : String
deriving DecidableEq

/-- Modelled from the spec: one inbound request (§3 Event). -/
structure Event where
  id : String
  agent_id : Option String := none
  sender : Option EventSender := none
  metadata : Option EventMetadata := none
  messages : Option (List EventPart) := none
  recipients : Option (List EventRecipient) := none
deriving DecidableEq

/-- Content entries contributed by one message part (the loop body of
`convertEventToUserMessage`, lines 33-63): text passes through verbatim when
its trim is nonempty; an image needs a nonempty-after-trim url; audio needs
nonempty-after-trim payload data. -/
def eventPartContents : EventPart → List Content
  | .text t => if trimChars t.data ≠ [] then [.text t] else []
  | .image url format => if trimChars url.data ≠ [] then [.image_url ⟨url, format⟩] else []
  | .audio data format => if trimChars data.data ≠ [] then [.input_audio ⟨data, format⟩] else []

/-- The synthetic leading location entry (lines 24-31): present exactly when
the event metadata carries a location with truthy `geocode_information`. -/
def locationContents (event : Event) : List Content :=
  match event.metadata.bind (fun m => m.location) with
  | some loc =>
    (match loc.geocode_information with
     | some g => if g ≠ "" then [Content.text ("I am currently at:\n" ++ g)] else []
     | none => [])
  | none => []

/-- convertEventToUserMessage (src/orchestrator/index.ts, lines 21-69):
builds the user turn from the event's message parts, with the location
summary first. The caller has already established that `messages` is
present. -/
def convertEventToUserMessage (event : Event) : Message :=
  .user (locationContents event ++ ((event.messages.getD []).map eventPartContents).flatten)

/-!
Context Enrichment (the knowledge-graph lookup and system-prompt
augmentation repeated at the three session-reset/switch sites of
`handleEvent`), and the Session Resolver (lines 142-508).
-/

/-- A node returned by the knowledge-graph search. -/
structure GraphitiNode where
  name : String
  summary : String
deriving DecidableEq

/-- An edge fact returned by the knowledge-graph search. -/
structure GraphitiEdge where
  fact : String
deriving DecidableEq

/-- The `results` payload of a knowledge-graph search response. -/
structure GraphitiResults where
  nodes : Option (List GraphitiNode) := none
  edges : Option (List GraphitiEdge) := none
deriving DecidableEq

/-- A knowledge-graph search response (`searchResponse?.results || null`
reads the optional `results` field). -/
structure GraphitiSearchResponse where
  results : Option GraphitiResults := none
deriving DecidableEq

/-- JavaScript `a || b` for an optional string against a default: the
left side wins when defined and nonempty. -/
def jsOrStr (a : Option String) (b : String) : String :=
  match a with
  | some s => if s ≠ "" then s else b
  | none => b

/-- The display-name resolution of the enrichment block:
`first_name?.trim() || username?.trim()`. -/
def resolveName (first_name username : Option String) : Option String :=
  match first_name.map jsTrim with
  | some f => if f ≠ "" then some f else username.map jsTrim
  | none => username.map jsTrim

/-- The knowledge-graph lookup of the enrichment block: performed only for a
non-automated sender (`is_bot === false`) with a truthy resolved name; a
search failure is caught and leaves the results null. `search` is the
outcome the knowledge-graph service would return. -/
def graphitiLookup (search : Except String GraphitiSearchResponse)
    (is_bot : Option Bool) (first_name username : Option String) :
    Option GraphitiResults :=
  if is_bot = some false then
    match resolveName first_name username with
    | some name =>
      if name ≠ "" then
        (match search with
         | .ok resp => resp.results
         | .error _ => none)
      else none
    | none => none
  else none

/-- Up to five formatted node summaries, newline separated. -/
def nodeSummariesText (results : GraphitiResults) : String :=
  match results.nodes with
  | some l =>
    String.intercalate "\n" ((l.take 5).map (fun n => "- " ++ n.name ++ ": " ++ n.summary))
  | none => ""

/-- Up to five formatted edge facts, newline separated. -/
def edgeFactsText (results : GraphitiResults) : String :=
  match results.edges with
  | some l => String.intercalate "\n" ((l.take 5).map (fun e => "- " ++ e.fact))
  | none => ""

/-- The formatted enrichment block appended to the system prompt; empty when
there are no results or both summaries come out empty. `sourcePhrase`
differs between the three sites ("from the previous conversations" at the
session-command site, "from the Graphiti knowledge graph" at the other two);
`who` is `first_name || user_id`. -/
def graphitiContextText (sourcePhrase who : String)
    (resultsOpt : Option GraphitiResults) : String :=
  match resultsOpt with
  | none => ""
  | some results =>
    let nodeSummaries := nodeSummariesText results
    let edgeFacts := edgeFactsText results
    if nodeSummaries ≠ "" ∨ edgeFacts ≠ "" then
      "Here are relevant facts about " ++ who ++ " " ++ sourcePhrase ++ ":\n\n" ++
      (if nodeSummaries ≠ "" then "🧠 Entities:\n" ++ nodeSummaries ++ "\n\n" else "") ++
      (if edgeFacts ≠ "" then "🔗 Relationships:\n" ++ edgeFacts ++ "\n\n" else "") ++
      "If there are any location information provided, it is probably outdated and you should confirm the user\x27s location if it is required."
    else ""

/-- The fresh system turn: the agent prompt, then the enrichment context
when nonempty. -/
def enrichedSystemMessage (system_prompt ctx : String) : Message :=
  .system ([Content.text system_prompt] ++ (if ctx ≠ "" then [Content.text ctx] else []))

/-- The log-store parameters for persisting a system turn from the session
phase (role "system", serialized message, ids attached). -/
def systemLogParams (model : String) (msg : Message) (user_id chat_id : Option String)
    (session_id agent_id : String) : LogParams :=
  { model := model, role := "system", message := encodeMessage msg,
    user_id := user_id, chat_id := chat_id,
    session_id := some session_id, agent_id := some agent_id }

/-- Errors `handleEvent` can surface to its caller (thrown exceptions in the
source; `typeError` sites are JavaScript TypeErrors from property access on
undefined, `scriptEnded` cuts off the unbounded model loop when the scripted
responses run out). -/
inductive OrchErr where
  | missingMessages
  | noAgentSpecified
  | noAgentFound (agent_id : String)
  | textEventMissingText
  | typeError (site : String)
  | llmFailed (message : String)
  | graphitiEpisode (message : String)
  | scriptEnded
deriving DecidableEq

/-- Result of the session phase: the resolved session id, the initial
conversation, and the rows logged. -/
structure SessionSetupOut where
  sessionId : String
  conv : List Message
  logs : List LogParams
deriving DecidableEq

/-- One session-reset/switch block (the thrice-repeated enrichment plus
system-turn construction and persistence): returns the new system turn and
its log row. The interim `sendResponse` notice swallows its own errors
(src/clients/response.ts) and is not otherwise observable. -/
def resetSessionBlock (search : Except String GraphitiSearchResponse)
    (is_bot : Option Bool) (first_name username : Option String)
    (user_id : String) (chat_id : Option String)
    (sourcePhrase model system_prompt sessionId agent_id : String) :
    Message × LogParams :=
  let results := graphitiLookup search is_bot first_name username
  let ctx := graphitiContextText sourcePhrase (jsOrStr first_name user_id) results
  let msg := enrichedSystemMessage system_prompt ctx
  (msg, systemLogParams model msg (some user_id) chat_id sessionId agent_id)

/-- The Session Resolver for a user-bound request (lines 143-446): the
switch on the session command. `sessionId` is the value resolved at lines
139-141 (the event's prior session id, or a fresh uuid); `rows` is the
result of the log-store read for the user's latest session; `now` is
Date.now() in milliseconds. With no session command, an empty row list makes
`rows[rows.length - 1]` undefined and the following `.timestamp` access
throw a TypeError. -/
def setupUserSession (search : Except String GraphitiSearchResponse)
    (is_bot : Option Bool) (first_name username : Option String)
    (user_id : String) (chat_id : Option String)
    (agent_id model system_prompt : String)
    (agent_idOverwritten : Bool) (sessionCommand : Option String)
    (sessionId : String) (rows : List LogRow) (now : Int) :
    Except OrchErr SessionSetupOut :=
  match sessionCommand with
  | some "new" =>
    let r := resetSessionBlock search is_bot first_name username user_id chat_id
      "from the previous conversations" model system_prompt sessionId agent_id
    .ok ⟨sessionId, [r.1], [r.2]⟩
  | _ =>
    match rows.getLast? with
    | none => .error (.typeError "latestMessage.timestamp")
    | some latestMessage =>
      let latestTimestamMs := latestMessage.timestamp * 1000
      let timeThreshold : Int := 3 * 60 * 60 * 1000
      let timeDifference := now - latestTimestamMs
      if timeDifference > timeThreshold then
        let r := resetSessionBlock search is_bot first_name username user_id chat_id
          "from the Graphiti knowledge graph" model system_prompt sessionId agent_id
        .ok ⟨sessionId, [r.1], [r.2]⟩
      else
        let sessionId2 :=
          match latestMessage.session_id with
          | some sid => sid
          | none => "null"
        let replayed := replayRows rows
        if agent_idOverwritten then
          let r := resetSessionBlock search is_bot first_name username user_id chat_id
            "from the Graphiti knowledge graph" model system_prompt sessionId2 agent_id
          .ok ⟨sessionId2, replayed ++ [r.1], [r.2]⟩
        else
          .ok ⟨sessionId2, replayed, []⟩

/-- The Session Resolver for a request without a stable user id (lines
447-507). The `sessionId === undefined` branch at lines 448-466 is
unreachable: the session id was defaulted to a fresh uuid at lines 139-141.
`sessionRows` is the log-store read for the explicit session id; with no
rows a bare system turn (no enrichment, no user/chat ids) is created and
persisted, otherwise the rows are replayed without logging. -/
def setupAnonSession (sessionId : String) (sessionRows : List LogRow)
    (model system_prompt agent_id : String) : SessionSetupOut :=
  if sessionRows.isEmpty then
    let msg : Message := .system [Content.text system_prompt]
    ⟨sessionId, [msg],
      [{ model := model, role := "system", message := encodeMessage msg,
         session_id := some sessionId, agent_id := some agent_id }]⟩
  else
    ⟨sessionId, replayRows sessionRows, []⟩

/-!
Model Invocation: the retry wrapper `getLLMResponse`
(src/clients/llm.ts, lines 63-107).
-/

/-- The outcome of one attempt against the language-model endpoint, as seen
by the retry loop: a transport failure of `fetch`, a non-success HTTP
status, or a JSON body. -/
inductive LLMAttempt where
  | transportError (message : String)
  | httpError (status : Nat) (statusText : String)
  | ok (data : Json)
deriving DecidableEq

/-- The errors the retry loop can record and rethrow, modelled structurally
(`invalidResponse` carries the offending body in place of its stringified
form; `exhausted` is the `lastError || new Error(...)` fallback, unreachable
with a positive retry budget). -/
inductive LLMError where
  | transport (message : String)
  | http (status : Nat) (statusText : String)
  | invalidResponse (data : Json)
  | exhausted
deriving DecidableEq

/-- The response-validity check of `getLLMResponse` (line 88): the body must
hold a nonempty `choices` array whose first element has a truthy `message`
field. -/
def llmResponseValid (data : Json) : Bool :=
  match data.getField "choices" with
  | some (.arr (c :: _)) => jsTruthyOpt (c.getField "message")
  | _ => false

/-- One attempt of the retry loop: success exactly when the endpoint
delivered a body that passes `llmResponseValid`; everything else is the
error that the catch block records. -/
def attemptResult (a : LLMAttempt) : Except LLMError Json :=
  match a with
  | .transportError m => .error (.transport m)
  | .httpError status statusText => .error (.http status statusText)
  | .ok data =>
    if llmResponseValid data then .ok data else .error (.invalidResponse data)

/-- The retry loop of `getLLMResponse`: `remaining` counts attempts left,
`attempt` those made, `lastError` the latest recorded failure, `delays` the
backoff sleeps performed so far (500ms doubled per attempt, slept after
every failed attempt). The oracle gives the outcome of attempt number `i`
(1-based). Returns the result, the number of attempts made, and the delays
slept. -/
def llmAttempts (oracle : Nat → LLMAttempt) :
    Nat → Nat → Option LLMError → List Nat →
    Except LLMError Json × Nat × List Nat
  | 0, attempt, lastError, delays => (.error (lastError.getD .exhausted), attempt, delays)
  | remaining + 1, attempt, lastError, delays =>
    let attempt1 := attempt + 1
    match attemptResult (oracle attempt1) with
    | .ok data => (.ok data, attempt1, delays)
    | .error e =>
      llmAttempts oracle remaining attempt1 (some e) (delays ++ [500 * 2 ^ (attempt1 - 1)])

/-- LLMClient.getLLMResponse (src/clients/llm.ts, lines 63-107): up to
`maxRetries = 3` attempts with exponential backoff; a valid body is returned
as soon as one arrives, and exhaustion throws the last error. (The ephemeral
time-grounding system turn appended to the payload before the call carries
no observable state and is not modelled.) -/
def getLLMResponse (oracle : Nat → LLMAttempt) :
    Except LLMError Json × Nat × List Nat :=
  llmAttempts oracle 3 0 none []

/-!
The Tool-Call Loop (src/orchestrator/index.ts, lines 522-752), driven by a
finite script of typed model responses. The typed layer sits above
`getLLMResponse`: a successful script entry is the validated body, already
shaped per the `AssistantMessage` interface (whose `role` is the literal
"assistant").
-/

/-- sanitizeResponseMessage (src/utils/sanitiseResponseMessage.ts): strips
the `signature` field from every thinking block and replaces a missing
`thinking_blocks` with an empty array; all other fields pass through. -/
def sanitizeResponseMessage (message : AssistantMessage) : AssistantMessage :=
  { message with
    thinking_blocks :=
      some ((message.thinking_blocks.getD []).map (fun b => { b with signature := none })) }

/-- Token usage counters of a model response. -/
structure LLMUsage where
  completion_tokens : Int
  prompt_tokens : Int
  total_tokens : Int
deriving DecidableEq

/-- One choice of a model response. -/
structure LLMChoice where
  message : AssistantMessage
  finish_reason : Option String := none
deriving DecidableEq

/-- A typed model response as the loop consumes it (`usage` is not checked
by the retry wrapper, so its absence still reaches the loop and the
`usage.completion_tokens` access would throw). -/
structure LLMResponse where
  choices : List LLMChoice
  usage : Option LLMUsage := none
deriving DecidableEq

/-- The audio fields reachable at
`ttsResponse.choices?.[0]?.message?.audio` in the DONE phase. -/
structure TTSAudio where
  data : Option String := none
  format : Option String := none
deriving DecidableEq

/-- One outgoing message of the final reply. -/
inductive RespMsg where
  | text (text : String)
  | audio (data : String) (format : String)
deriving DecidableEq

/-- The structured reply returned to the caller when the event has no
recipients. -/
structure Reply where
  id : String
  messages : List RespMsg
  agent_id : String
  session_id : String
deriving DecidableEq

/-- The per-request context threaded through the loop, including the oracles
for the external services it may still call. -/
structure LoopCtx where
  model : String
  is_bot : Option Bool := none
  user_id : Option String := none
  chat_id : Option String := none
  sessionId : String
  agent_id : String
  hasAudioInput : Bool := false
  userMessageContent : List Content := []
  eventId : String := ""
  recipientsCount : Nat := 0
  first_name : Option String := none
  username : Option String := none
  geminiVoice : Option String := none
  tts : Except String TTSAudio := .error "unavailable"
  stt : Except String String := .error "unavailable"
  episode : Except String Unit := .ok ()
  toolOracle : Nat → String → Json → Except String Json := fun _ _ _ => .error "unavailable"

/-- Content extraction from a tool result (lines 629-641): prefer a truthy
`result.content`, else a truthy `messages`, else wrap the raw result in an
array. -/
def extractContentArray (toolResult : Json) : Json :=
  let rc := (toolResult.getField "result").bind (fun r => r.getField "content")
  if jsTruthyOpt rc then rc.getD Json.null
  else
    let ms := toolResult.getField "messages"
    if jsTruthyOpt ms then ms.getD Json.null
    else Json.arr [toolResult]

/-- One iteration of the tool-execution loop (lines 605-661): parse the
argument payload (an unparsable payload degrades to an empty argument set,
logged, not fatal), invoke the gateway (a failure is substituted by a
structured error object `{error: String(err)}`), extract the content array,
and build the tool turn and its log row. `k` indexes the gateway oracle. -/
def jsArgsText (call : ToolCall) : String :=
  if call.arguments = "" then "\x7b\x7d" else call.arguments

/-- The parsed tool arguments (lines 610-615): `JSON.parse(argsRaw || '\x7b\x7d')`
inside a try block whose catch leaves the empty argument set. -/
def parsedToolArgs (call : ToolCall) : Json :=
  match parseJson (jsArgsText call) with
  | some j => j
  | none => Json.obj []

def execToolCall (ctx : LoopCtx) (k : Nat) (call : ToolCall) : LogParams × Message :=
  let toolResult : Json :=
    match ctx.toolOracle k call.name (parsedToolArgs call) with
    | .ok r => r
    | .error e => Json.obj [("error", Json.str e)]
  let contentArray := extractContentArray toolResult
  let toolMessage : Message := .tool contentArray call.id
  ({ model := ctx.model, role := "tool", message := encodeMessage toolMessage,
     user_id := ctx.user_id, chat_id := ctx.chat_id,
     session_id := some ctx.sessionId, agent_id := some ctx.agent_id }, toolMessage)

/-- The tool-execution loop over a batch of calls, sequential and in request
order: one log row and one tool turn per call, the gateway oracle index
advancing by one per call. -/
def execToolCalls (ctx : LoopCtx) (k : Nat) :
    List ToolCall → List LogParams × List Message × Nat
  | [] => ([], [], k)
  | call :: calls =>
    let r := execToolCall ctx k call
    let rest := execToolCalls ctx (k + 1) calls
    (r.1 :: rest.1, r.2 :: rest.2.1, rest.2.2)

/-- First audio entry of the user message
(`userMessage.content.find(c => c.type === 'input_audio')?.input_audio`). -/
def findInputAudio (content : List Content) : Option InputAudio :=
  content.findSome? (fun c => match c with | .input_audio a => some a | _ => none)

/-- First text entry of the user message. -/
def findTextContent (content : List Content) : Option String :=
  content.findSome? (fun c => match c with | .text t => some t | _ => none)

/-- The DONE phase (lines 664-751): assemble the outgoing messages (speech
synthesis on audio input, degrading to text-only on any TTS failure), then
either deliver to the recipients — after which, for a non-automated sender,
the knowledge-graph episode call runs and its failure propagates — or
return the structured reply. `sendResponse` swallows its own errors
(src/clients/response.ts) and leaves no trace here; the episode payload
(session id, turn count, transcribed or extracted user text) does not
influence the oracle outcome and only the text extraction, with its caught
STT failure, is modelled. -/
def donePhase (ctx : LoopCtx) (finalAssistantText : String) :
    Except OrchErr (Option Reply) :=
  let ttsMessages : List RespMsg :=
    if ctx.hasAudioInput then
      match ctx.tts with
      | .ok audio =>
        (match audio.data with
         | some d =>
           if d ≠ "" then [RespMsg.audio d (jsOrStr audio.format "mp3")] else []
         | none => [])
      | .error _ => []
    else []
  let outgoingMessages := [RespMsg.text finalAssistantText] ++ ttsMessages
  if ctx.recipientsCount > 0 then
    if ctx.is_bot = some false then
      let _userText : String :=
        if ctx.hasAudioInput then
          (match findInputAudio ctx.userMessageContent with
           | some audio =>
             if audio.data ≠ "" then
               (match ctx.stt with
                | .ok t => t
                | .error _ => "")
             else ""
           | none => "")
        else (findTextContent ctx.userMessageContent).getD ""
      match ctx.episode with
      | .ok _ => .ok none
      | .error e => .error (.graphitiEpisode e)
    else .ok none
  else
    .ok (some { id := ctx.eventId, messages := outgoingMessages,
                agent_id := ctx.agent_id, session_id := ctx.sessionId })

/-- The log row of a persisted assistant turn (lines 566-580); the `role`
field is `responseMessage.role`, the literal "assistant" of the
`AssistantMessage` interface. -/
def assistantLogParams (ctx : LoopCtx) (choice : LLMChoice) (usage : LLMUsage) : LogParams :=
  { model := ctx.model, role := "assistant",
    message := encodeMessage (.assistant (sanitizeResponseMessage choice.message)),
    finish_reason := choice.finish_reason,
    user_id := ctx.user_id, chat_id := ctx.chat_id,
    session_id := some ctx.sessionId, agent_id := some ctx.agent_id,
    completion_tokens := usage.completion_tokens,
    prompt_tokens := usage.prompt_tokens,
    total_tokens := usage.total_tokens }

/-- The Tool-Call Loop (the `while (true)` of lines 551-752), driven by the
finite script of model-call outcomes: each iteration consumes one outcome,
persists the assistant turn, then either executes the batch of tool calls
and loops, finishes via the DONE phase on a normal stop with non-null text,
or loops back otherwise. Returns the request outcome, the rows logged, and
the number of model calls made; an exhausted script (the reference loop has
no iteration cap) yields `scriptEnded`. -/
def llmLoop (ctx : LoopCtx) :
    List (Except String LLMResponse) → List Message → Nat →
    Except OrchErr (Option Reply) × List LogParams × Nat
  | [], _conv, _k => (.error .scriptEnded, [], 0)
  | outcome :: rest, conv, k =>
    match outcome with
    | .error e => (.error (.llmFailed e), [], 1)
    | .ok response =>
      match response.choices.head? with
      | none => (.error (.typeError "choice.message"), [], 1)
      | some choice =>
        let responseMessage := sanitizeResponseMessage choice.message
        match response.usage with
        | none => (.error (.typeError "usage.completion_tokens"), [], 1)
        | some usage =>
          let logData := assistantLogParams ctx choice usage
          let conv1 := conv ++ [Message.assistant responseMessage]
          let toolCalls := responseMessage.tool_calls.getD []
          if toolCalls.length > 0 then
            let tools := execToolCalls ctx k toolCalls
            let next := llmLoop ctx rest (conv1 ++ tools.2.1) tools.2.2
            (next.1, logData :: (tools.1 ++ next.2.1), next.2.2 + 1)
          else
            match choice.finish_reason, responseMessage.content with
            | some "stop", some t => (donePhase ctx t, [logData], 1)
            | _, _ =>
              let next := llmLoop ctx rest conv1 k
              (next.1, logData :: next.2.1, next.2.2 + 1)

/-!
The orchestration entry point `handleEvent`
(src/orchestrator/index.ts, lines 87-753).
-/

/-- Agent configuration as the orchestrator reads it (the registry record is
an open dictionary; only the fields the engine touches are modelled, each
optional because the destructuring at line 138 supplies defaults). -/
structure MCPServerConfig where
  allowed_tools : List String
deriving DecidableEq

/-- An entry of the agent's MCP-server configuration. -/
structure AgentConfig where
  model : Option String := none
  system_prompt : Option String := none
  mcp_servers : Option (List MCPServerConfig) := none
  geminiVoice : Option String := none
deriving DecidableEq

/-- One tool of the gateway catalog as returned by `listTools`. -/
structure MCPTool where
  name : String
  description : String
  parameters : Json
deriving DecidableEq

/-- The environment of one `handleEvent` run: the fresh uuid, the wall
clock, and the outcomes of every external call the run may make.
`userRows` and `sessionRows` are modelled from the spec: the orchestrator
reads them through log-store methods that are not under src/
(`readLatestSessionByUser` returns the ordered turns of the user\x27s latest
session, possibly none; `readSession` the ordered turns of an explicit
session id). -/
structure Env where
  uuid : String
  now : Int
  userRows : List LogRow := []
  sessionRows : List LogRow := []
  agentLookup : String → Option AgentConfig := fun _ => none
  allTools : List MCPTool := []
  search : Except String GraphitiSearchResponse := .error "unavailable"
  llmScript : List (Except String LLMResponse) := []
  toolOracle : Nat → String → Json → Except String Json := fun _ _ _ => .error "unavailable"
  tts : Except String TTSAudio := .error "unavailable"
  stt : Except String String := .error "unavailable"
  episode : Except String Unit := .ok ()

/-- The message-unpacking loop (lines 116-133): text parts must be nonempty,
their directives are extracted and the part is replaced by the cleaned text
(later truthy session commands win, the last agent override wins and sets
the flag); an audio part sets the audio-input flag. Returns the rewritten
parts and the accumulated state. -/
def unpackLoop : List EventPart → Option String → String → Bool → Bool →
    Except OrchErr (List EventPart × Option String × String × Bool × Bool)
  | [], sessionCommand, agent_id, overwritten, hasAudio =>
    .ok ([], sessionCommand, agent_id, overwritten, hasAudio)
  | part :: parts, sessionCommand, agent_id, overwritten, hasAudio =>
    match part with
    | .text t =>
      if t = "" then .error .textEventMissingText
      else
        let parsed := parseMessage t
        let sessionCommand1 :=
          match parsed.sessionCommand with
          | some s => if s ≠ "" then some s else sessionCommand
          | none => sessionCommand
        let agentState :=
          match parsed.agent_idOverride with
          | some a => if a ≠ "" then (a, true) else (agent_id, overwritten)
          | none => (agent_id, overwritten)
        (match unpackLoop parts sessionCommand1 agentState.1 agentState.2 hasAudio with
         | .ok r => .ok (.text parsed.cleanText :: r.1, r.2)
         | .error e => .error e)
    | .audio d f =>
      (match unpackLoop parts sessionCommand agent_id overwritten true with
       | .ok r => .ok (.audio d f :: r.1, r.2)
       | .error e => .error e)
    | .image u f =>
      (match unpackLoop parts sessionCommand agent_id overwritten hasAudio with
       | .ok r => .ok (.image u f :: r.1, r.2)
       | .error e => .error e)

/-- The built-in Google capabilities appended to the tool list when the
agent's allow-list names them (lines 536-549). -/
def googleToolNames : List String := ["google_search", "google_maps", "google_url_context"]

/-- Orchestrator.handleEvent (src/orchestrator/index.ts, lines 87-753):
unpack and validate the event, resolve the session (logging any fresh system
turn), append and persist the user turn — with the log-row role set to
"system" as at line 513 — and run the tool-call loop. Returns the outcome
together with every log-store append the run performed, in order (appends
are modelled as always acknowledged; a log failure would propagate in the
source). The filtered tool list influences only the model, whose behavior
the script already fixes. -/
def handleEvent (env : Env) (event : Event) :
    Except OrchErr (Option Reply) × List LogParams :=
  match event.messages with
  | none => (.error .missingMessages, [])
  | some parts0 =>
  match event.agent_id with
  | none => (.error .noAgentSpecified, [])
  | some agent_id0 =>
  if agent_id0 = "" then (.error .noAgentSpecified, [])
  else
    let source := event.sender.bind (fun s => s.source)
    let is_bot : Option Bool :=
      match source with
      | some _ => some ((event.sender.bind (fun s => s.is_bot)).getD false)
      | none => none
    let user_id := event.sender.bind (fun s => s.user_id)
    let chat_id := event.sender.bind (fun s => s.chat_id)
    let first_name := event.sender.bind (fun s => s.first_name)
    let username := event.sender.bind (fun s => s.username)
    match unpackLoop parts0 none agent_id0 false false with
    | .error e => (.error e, [])
    | .ok (parts, sessionCommand, agent_id, agent_idOverwritten, hasAudioInput) =>
    match env.agentLookup agent_id with
    | none => (.error (.noAgentFound agent_id), [])
    | some config =>
      let model := config.model.getD "gemini-2.5-flash"
      let system_prompt := config.system_prompt.getD "You are a helpful AI Agent."
      let sessionId0 := (event.metadata.bind (fun m => m.sessionId)).getD env.uuid
      let event1 := { event with messages := some parts }
      let setup :=
        match user_id with
        | some uid =>
          setupUserSession env.search is_bot first_name username uid chat_id agent_id
            model system_prompt agent_idOverwritten sessionCommand sessionId0
            env.userRows env.now
        | none =>
          .ok (setupAnonSession sessionId0 env.sessionRows model system_prompt agent_id)
      match setup with
      | .error e => (.error e, [])
      | .ok s =>
        let userMessage := convertEventToUserMessage event1
        let userLog : LogParams :=
          { model := model, role := "system", message := encodeMessage userMessage,
            user_id := user_id, chat_id := chat_id,
            session_id := some s.sessionId, agent_id := some agent_id }
        let conv := s.conv ++ [userMessage]
        let allowedTools := ((config.mcp_servers.getD []).map (fun sv => sv.allowed_tools)).flatten
        let _llmTools := env.allTools.filter (fun t => allowedTools.contains t.name)
        let _extraGoogleTools := allowedTools.filter (fun n => googleToolNames.contains n)
        let ctx : LoopCtx :=
          { model := model, is_bot := is_bot, user_id := user_id, chat_id := chat_id,
            sessionId := s.sessionId, agent_id := agent_id,
            hasAudioInput := hasAudioInput,
            userMessageContent := (match userMessage with | .user c => c | _ => []),
            eventId := event.id,
            recipientsCount := (event.recipients.getD []).length,
            first_name := first_name, username := username,
            geminiVoice := config.geminiVoice,
            tts := env.tts, stt := env.stt, episode := env.episode,
            toolOracle := env.toolOracle }
        let loop := llmLoop ctx env.llmScript conv 0
        (loop.1, s.logs ++ [userLog] ++ loop.2.1)

/-!
Claim theorems.
-/

theorem llmAttempts_succ (oracle : Nat → LLMAttempt) (r attempt : Nat)
    (lastError : Option LLMError) (delays : List Nat) :
    llmAttempts oracle (r + 1) attempt lastError delays =
      match attemptResult (oracle (attempt + 1)) with
      | .ok data => (.ok data, attempt + 1, delays)
      | .error e =>
        llmAttempts oracle r (attempt + 1) (some e) (delays ++ [500 * 2 ^ (attempt + 1 - 1)]) :=
  rfl

/-- C6: getLLMResponse makes at most 3 attempts with exponential backoff
delays of 500ms doubling per attempt, accepts a response only if it contains
at least one choice with a message payload (treating transport failure,
non-success status, or malformed payload as retryable), and after exhausting
all attempts throws the last error to the caller. -/
theorem c6_getLLMResponse_retry (oracle : Nat → LLMAttempt) :
    (getLLMResponse oracle).2.1 ≤ 3
    ∧ (∀ data, (getLLMResponse oracle).1 = .ok data →
        llmResponseValid data = true ∧
        ∃ i, 1 ≤ i ∧ i ≤ 3 ∧ attemptResult (oracle i) = .ok data)
    ∧ (∀ e1 data, attemptResult (oracle 1) = .error e1 →
        attemptResult (oracle 2) = .ok data →
        getLLMResponse oracle = (.ok data, 2, [500]))
    ∧ (∀ e1 e2 e3, attemptResult (oracle 1) = .error e1 →
        attemptResult (oracle 2) = .error e2 → attemptResult (oracle 3) = .error e3 →
        getLLMResponse oracle = (.error e3, 3, [500, 1000, 2000])) := by
  have step3 := llmAttempts_succ oracle 2 0 none []
  norm_num at step3
  have valid_of_ok : ∀ a data, attemptResult a = .ok data → llmResponseValid data = true := by
    intro a data h
    cases a with
    | transportError m => simp [attemptResult] at h
    | httpError s t => simp [attemptResult] at h
    | ok d =>
      by_cases hv : llmResponseValid d
      · simp [attemptResult, hv] at h
        rw [← h]
        exact hv
      · simp [attemptResult, hv] at h
  rcases h1 : attemptResult (oracle 1) with e1 | d1
  · rcases h2 : attemptResult (oracle 2) with e2 | d2
    · rcases h3 : attemptResult (oracle 3) with e3 | d3
      · refine ⟨?_, ?_, ?_, ?_⟩ <;>
          simp [getLLMResponse, step3, h1, llmAttempts_succ, h2, h3, llmAttempts]
      · refine ⟨?_, ?_, ?_, ?_⟩ <;>
          simp [getLLMResponse, step3, h1, llmAttempts_succ, h2, h3, llmAttempts]
        constructor
        · exact valid_of_ok _ _ h3
        · exact ⟨3, by omega, by omega, h3⟩
    · refine ⟨?_, ?_, ?_, ?_⟩ <;>
        simp [getLLMResponse, step3, h1, llmAttempts_succ, h2, llmAttempts]
      constructor
      · exact valid_of_ok _ _ h2
      · exact ⟨2, by omega, by omega, h2⟩
  · refine ⟨?_, ?_, ?_, ?_⟩ <;>
      simp [getLLMResponse, step3, h1, llmAttempts_succ, llmAttempts]
    constructor
    · exact valid_of_ok _ _ h1
    · exact ⟨1, by omega, by omega, h1⟩

/-- A language-model endpoint that is down on every attempt. -/
def c6DownOracle : Nat → LLMAttempt := fun _ => .transportError "service down"

theorem c6_getLLMResponse_retry_witness :
    getLLMResponse c6DownOracle = (.error (.transport "service down"), 3, [500, 1000, 2000]) :=
  (c6_getLLMResponse_retry c6DownOracle).2.2.2
    (.transport "service down") (.transport "service down") (.transport "service down")
    rfl rfl rfl

theorem sanitize_preserves_content (m : AssistantMessage) :
    (sanitizeResponseMessage m).content = m.content := rfl

theorem sanitize_preserves_tool_calls (m : AssistantMessage) :
    (sanitizeResponseMessage m).tool_calls = m.tool_calls := rfl

/-- C8: convertEventToUserMessage maps each event message part to at most
one content entry — text passes through verbatim and is dropped when
whitespace-only; an image part yields an entry only with a nonempty URL; an
audio part only with nonempty payload data — and a location descriptor adds
a synthetic text entry first in the content list. -/
theorem c8_multimodal_normalization (event : Event) (parts : List EventPart)
    (hmsgs : event.messages = some parts) :
    convertEventToUserMessage event =
      .user (locationContents event ++ (parts.map eventPartContents).flatten)
    ∧ (∀ part, (eventPartContents part).length ≤ 1)
    ∧ (∀ t, trimChars t.data ≠ [] → eventPartContents (.text t) = [.text t])
    ∧ (∀ t, trimChars t.data = [] → eventPartContents (.text t) = [])
    ∧ (∀ u f, eventPartContents (.image u f) =
        if trimChars u.data ≠ [] then [.image_url ⟨u, f⟩] else [])
    ∧ (∀ d f, eventPartContents (.audio d f) =
        if trimChars d.data ≠ [] then [.input_audio ⟨d, f⟩] else [])
    ∧ (∀ loc g, event.metadata.bind (fun m => m.location) = some loc →
        loc.geocode_information = some g → g ≠ "" →
        ∃ restEntries, convertEventToUserMessage event =
          .user (Content.text ("I am currently at:\n" ++ g) :: restEntries)) := by
  refine ⟨by simp [convertEventToUserMessage, hmsgs], ?_, ?_, ?_, ?_, ?_, ?_⟩
  · intro part
    cases part <;> simp [eventPartContents] <;> split <;> simp
  · intro t h; simp [eventPartContents, h]
  · intro t h; simp [eventPartContents, h]
  · intro u f; rfl
  · intro d f; rfl
  · intro loc g hloc hg hne
    refine ⟨(parts.map eventPartContents).flatten, ?_⟩
    simp [convertEventToUserMessage, hmsgs, locationContents, hloc, hg, hne]

/-- An event carrying a location descriptor, a normal text part, a
whitespace-only text part, an image part with an empty URL, and an audio
part with payload data. -/
def c8Event : Event :=
  { id := "e8",
    metadata := some { location := some { geocode_information := some "Lat 1.3, Lon 103.8" } },
    messages := some [.text "hello", .text "   ", .image "" "png", .audio "QUJD" "ogg"] }

theorem c8_multimodal_normalization_witness :
    convertEventToUserMessage c8Event =
      .user [.text "I am currently at:\nLat 1.3, Lon 103.8", .text "hello",
             .input_audio ⟨"QUJD", "ogg"⟩] := by
  have h := (c8_multimodal_normalization c8Event
    [.text "hello", .text "   ", .image "" "png", .audio "QUJD" "ogg"] rfl).1
  rw [h]
  decide

/-- An environment whose log store holds no rows for any user (the
knowledge-graph and model services are irrelevant: the failure occurs before
they are reached). -/
def c1Env : Env :=
  { uuid := "fresh-session-uuid", now := 1700000000000,
    userRows := [],
    agentLookup := fun a =>
      if a = "helper" then some { system_prompt := some "You help." } else none }

/-- A user-bound request with plain text (no session-reset command) from a
user with no prior turns. -/
def c1Event : Event :=
  { id := "evt-c1", agent_id := some "helper",
    sender := some { source := some "telegram", is_bot := some false,
                     user_id := some "user-1", first_name := some "Roy" },
    messages := some [.text "hello"] }

/-- C1: contrary to the claim, a user-bound request with no session-reset
command and no prior turns does not produce a reset — `rows[rows.length - 1]`
is undefined and the `Number(latestMessage.timestamp)` access throws a
TypeError before anything is logged, so handleEvent fails. -/
theorem c1_no_prior_turns_throws :
    handleEvent c1Env c1Event = (.error (.typeError "latestMessage.timestamp"), []) := by
  decide

/-- A model response that stops normally with assistant text. -/
def c2Response : LLMResponse :=
  { choices := [{ message := { content := some "All done." }, finish_reason := some "stop" }],
    usage := some { completion_tokens := 1, prompt_tokens := 2, total_tokens := 3 } }

/-- An environment where every service works except the knowledge-graph
episode enqueue, which fails. -/
def c2Env : Env :=
  { uuid := "fresh-session-uuid", now := 1700000000000,
    agentLookup := fun a =>
      if a = "helper" then some { system_prompt := some "You help." } else none,
    llmScript := [.ok c2Response],
    episode := .error "enqueue failed" }

/-- A request from a non-automated sender with a recipient, so that the run
ends with delivery to recipients followed by the episode-logging call. -/
def c2Event : Event :=
  { id := "evt-c2", agent_id := some "helper",
    sender := some { source := some "telegram", is_bot := some false,
                     first_name := some "Roy" },
    messages := some [.text "hi there"],
    recipients := some [{ channel := "telegram" }] }

/-- C2 counterexample: a request that is delivered to its recipients from a
non-automated sender, after which the knowledge-graph episode call fails —
the failure is not caught and handleEvent fails instead of completing
normally (`sendGraphitiEpisode` rethrows and the orchestrator awaits it with
no surrounding try block). -/
theorem c2_counterexample_episode_failure_propagates :
    (handleEvent c2Env c2Event).1 = .error (.graphitiEpisode "enqueue failed") := by
  decide

/-- C2 as amended: in the DONE phase of a request with recipients and a
non-automated sender, a failure of the knowledge-graph episode-logging call
propagates to the caller of handleEvent (delivery itself has already
happened; only the episode error surfaces). -/
theorem c2_amended_episode_failure_propagates (ctx : LoopCtx) (t e : String)
    (hrec : ctx.recipientsCount > 0) (hbot : ctx.is_bot = some false)
    (hep : ctx.episode = .error e) :
    donePhase ctx t = .error (.graphitiEpisode e) := by
  simp [donePhase, hrec, hbot, hep]

/-- A DONE-phase context with a recipient, a non-automated sender, and a
failing episode call. -/
def c2Ctx : LoopCtx :=
  { model := "gemini-2.5-flash", sessionId := "sess-1", agent_id := "helper",
    is_bot := some false, recipientsCount := 1, episode := .error "enqueue failed" }

theorem c2_amended_episode_failure_propagates_witness :
    donePhase c2Ctx "All done." = .error (.graphitiEpisode "enqueue failed") :=
  c2_amended_episode_failure_propagates c2Ctx "All done." "enqueue failed"
    (by decide) rfl rfl

/-- C4: in any iteration of the tool-call loop, a model response carrying
zero tool calls, finish_reason "stop", and non-null assistant text ends the
loop in that iteration: the outcome is the DONE phase of that response with
its single persisted assistant turn, exactly one model call is counted, and
the remaining script (the further model calls that would be issued) is never
consumed. -/
theorem c4_terminal_response_stops_loop (ctx : LoopCtx)
    (rest : List (Except String LLMResponse)) (conv : List Message) (k : Nat)
    (response : LLMResponse) (choice : LLMChoice) (usage : LLMUsage) (t : String)
    (hchoice : response.choices.head? = some choice)
    (husage : response.usage = some usage)
    (hstop : choice.finish_reason = some "stop")
    (hcontent : choice.message.content = some t)
    (htools : choice.message.tool_calls.getD [] = []) :
    llmLoop ctx (.ok response :: rest) conv k = llmLoop ctx [.ok response] conv k
    ∧ llmLoop ctx (.ok response :: rest) conv k =
        (donePhase ctx t, [assistantLogParams ctx choice usage], 1) := by
  have hmain : ∀ r : List (Except String LLMResponse),
      llmLoop ctx (.ok response :: r) conv k =
        (donePhase ctx t, [assistantLogParams ctx choice usage], 1) := by
    intro r
    simp only [llmLoop, hchoice, husage]
    rw [show (sanitizeResponseMessage choice.message).tool_calls.getD [] = [] from by
      rw [sanitize_preserves_tool_calls]; exact htools]
    simp only [List.length_nil, gt_iff_lt, lt_self_iff_false, if_false]
    rw [show (sanitizeResponseMessage choice.message).content = some t from by
      rw [sanitize_preserves_content]; exact hcontent, hstop]
    rfl
  exact ⟨by rw [hmain, hmain], hmain rest⟩

/-- A minimal loop context with no recipients (the DONE phase returns the
structured reply). -/
def c4Ctx : LoopCtx :=
  { model := "gemini-2.5-flash", sessionId := "sess-4", agent_id := "helper" }

/-- A model response with zero tool calls, a normal stop, and text. -/
def c4Choice : LLMChoice :=
  { message := { content := some "final text" }, finish_reason := some "stop" }

/-- The response wrapping `c4Choice`. -/
def c4Response : LLMResponse :=
  { choices := [c4Choice],
    usage := some { completion_tokens := 1, prompt_tokens := 2, total_tokens := 3 } }

theorem c4_terminal_response_stops_loop_witness :
    llmLoop c4Ctx [.ok c4Response, .error "never reached"] [] 0 =
      (donePhase c4Ctx "final text",
       [assistantLogParams c4Ctx c4Choice ⟨1, 2, 3⟩], 1) :=
  (c4_terminal_response_stops_loop c4Ctx [.error "never reached"] [] 0
    c4Response c4Choice ⟨1, 2, 3⟩ "final text" rfl rfl rfl rfl rfl).2

/-- The tool-call id carried by a tool turn. -/
def Message.toolCallId : Message → Option String
  | .tool _ i => some i
  | _ => none

theorem execToolCalls_fst_length (ctx : LoopCtx) (k : Nat) (calls : List ToolCall) :
    (execToolCalls ctx k calls).1.length = calls.length := by
  induction calls generalizing k with
  | nil => rfl
  | cons c cs ih => simp [execToolCalls, ih]

theorem execToolCalls_msgs_length (ctx : LoopCtx) (k : Nat) (calls : List ToolCall) :
    (execToolCalls ctx k calls).2.1.length = calls.length := by
  induction calls generalizing k with
  | nil => rfl
  | cons c cs ih => simp [execToolCalls, ih]

theorem execToolCalls_roles (ctx : LoopCtx) (k : Nat) (calls : List ToolCall) :
    ∀ p ∈ (execToolCalls ctx k calls).1, p.role = "tool" := by
  induction calls generalizing k with
  | nil => intro p hp; simp [execToolCalls] at hp
  | cons c cs ih =>
    intro p hp
    simp only [execToolCalls, List.mem_cons] at hp
    rcases hp with h | h
    · rw [h]; rfl
    · exact ih (k + 1) p h

theorem execToolCalls_ids (ctx : LoopCtx) (k : Nat) (calls : List ToolCall) :
    (execToolCalls ctx k calls).2.1.map Message.toolCallId =
      calls.map (fun c => some c.id) := by
  induction calls generalizing k with
  | nil => rfl
  | cons c cs ih => simp [execToolCalls, execToolCall, Message.toolCallId, ih]

theorem execToolCalls_getElem (ctx : LoopCtx) :
    ∀ (calls : List ToolCall) (k i : Nat) (call : ToolCall), calls[i]? = some call →
      (execToolCalls ctx k calls).1[i]? = some (execToolCall ctx (k + i) call).1
      ∧ (execToolCalls ctx k calls).2.1[i]? = some (execToolCall ctx (k + i) call).2 := by
  intro calls
  induction calls with
  | nil => intro k i call h; simp at h
  | cons c cs ih =>
    intro k i call h
    cases i with
    | zero =>
      simp at h
      subst h
      simp [execToolCalls]
    | succ j =>
      simp at h
      have := ih (k + 1) j call h
      simp only [execToolCalls]
      constructor
      · simpa [Nat.add_assoc, Nat.add_comm 1 j] using this.1
      · simpa [Nat.add_assoc, Nat.add_comm 1 j] using this.2

theorem execToolCall_gateway_error (ctx : LoopCtx) (k : Nat) (call : ToolCall) (e : String)
    (h : ctx.toolOracle k call.name (parsedToolArgs call) = .error e) :
    (execToolCall ctx k call).2 = .tool (.arr [.obj [("error", .str e)]]) call.id := by
  simp only [execToolCall, h]
  rfl

/-- C5: an assistant turn with N tool-call requests is processed
sequentially in request order with exactly one persisted tool turn per
request — the gateway oracle consulted at consecutive indices, a structured
error result substituted when the gateway call fails, and an empty argument
set substituted when the argument payload is not valid JSON — after which
the loop proceeds to the next model call with the tool turns appended. -/
theorem c5_tool_batch_error_handling (ctx : LoopCtx) (k : Nat) (calls : List ToolCall)
    (rest : List (Except String LLMResponse)) (conv : List Message)
    (response : LLMResponse) (choice : LLMChoice) (usage : LLMUsage)
    (hchoice : response.choices.head? = some choice)
    (husage : response.usage = some usage)
    (htools : choice.message.tool_calls.getD [] = calls)
    (hne : calls ≠ []) :
    (execToolCalls ctx k calls).1.length = calls.length
    ∧ (execToolCalls ctx k calls).2.1.length = calls.length
    ∧ (∀ p ∈ (execToolCalls ctx k calls).1, p.role = "tool")
    ∧ (execToolCalls ctx k calls).2.1.map Message.toolCallId = calls.map (fun c => some c.id)
    ∧ (∀ i call, calls[i]? = some call →
        (execToolCalls ctx k calls).1[i]? = some (execToolCall ctx (k + i) call).1
        ∧ (execToolCalls ctx k calls).2.1[i]? = some (execToolCall ctx (k + i) call).2)
    ∧ (∀ i call e, calls[i]? = some call →
        ctx.toolOracle (k + i) call.name (parsedToolArgs call) = .error e →
        (execToolCalls ctx k calls).2.1[i]? =
          some (.tool (.arr [.obj [("error", .str e)]]) call.id))
    ∧ (∀ call, parseJson (jsArgsText call) = none → parsedToolArgs call = .obj [])
    ∧ llmLoop ctx (.ok response :: rest) conv k =
        ((llmLoop ctx rest
            ((conv ++ [.assistant (sanitizeResponseMessage choice.message)]) ++
              (execToolCalls ctx k calls).2.1)
            (execToolCalls ctx k calls).2.2).1,
         assistantLogParams ctx choice usage ::
           ((execToolCalls ctx k calls).1 ++
            (llmLoop ctx rest
              ((conv ++ [.assistant (sanitizeResponseMessage choice.message)]) ++
                (execToolCalls ctx k calls).2.1)
              (execToolCalls ctx k calls).2.2).2.1),
         (llmLoop ctx rest
            ((conv ++ [.assistant (sanitizeResponseMessage choice.message)]) ++
              (execToolCalls ctx k calls).2.1)
            (execToolCalls ctx k calls).2.2).2.2 + 1) := by
  refine ⟨execToolCalls_fst_length ctx k calls, execToolCalls_msgs_length ctx k calls,
    execToolCalls_roles ctx k calls, execToolCalls_ids ctx k calls,
    fun i call h => execToolCalls_getElem ctx calls k i call h, ?_, ?_, ?_⟩
  · intro i call e hcall horacle
    rw [(execToolCalls_getElem ctx calls k i call hcall).2,
      execToolCall_gateway_error ctx (k + i) call e horacle]
  · intro call h
    simp [parsedToolArgs, h]
  · simp only [llmLoop, hchoice, husage]
    rw [show (sanitizeResponseMessage choice.message).tool_calls.getD [] = calls from by
      rw [sanitize_preserves_tool_calls]; exact htools]
    rw [if_pos (by simpa using List.length_pos.mpr hne)]

/-- A loop context whose tool gateway fails on the second call of the batch
and succeeds otherwise. -/
def c5Ctx : LoopCtx :=
  { model := "gemini-2.5-flash", sessionId := "sess-5", agent_id := "helper",
    toolOracle := fun k _ _ =>
      if k = 1 then .error "gateway timeout"
      else .ok (Json.obj [("result", Json.obj [("content", Json.arr [Json.str "ok"])])]) }

/-- A batch of three tool calls; the second carries an unparsable argument
payload, the third an empty one. -/
def c5Calls : List ToolCall :=
  [⟨"call-0", 0, "toolA", "\x7b\"x\": 1\x7d"⟩,
   ⟨"call-1", 1, "toolB", "not json"⟩,
   ⟨"call-2", 2, "toolC", ""⟩]

/-- The assistant choice requesting the batch. -/
def c5Choice : LLMChoice :=
  { message := { content := none, tool_calls := some c5Calls },
    finish_reason := some "tool_calls" }

/-- The response wrapping `c5Choice`. -/
def c5Response : LLMResponse :=
  { choices := [c5Choice],
    usage := some { completion_tokens := 1, prompt_tokens := 2, total_tokens := 3 } }

theorem c5_tool_batch_error_handling_witness :
    (execToolCalls c5Ctx 0 c5Calls).1.length = 3
    ∧ (execToolCalls c5Ctx 0 c5Calls).2.1[1]? =
        some (.tool (.arr [.obj [("error", .str "gateway timeout")]]) "call-1")
    ∧ parsedToolArgs ⟨"call-1", 1, "toolB", "not json"⟩ = .obj [] := by
  have h := c5_tool_batch_error_handling c5Ctx 0 c5Calls [] [] c5Response c5Choice
    ⟨1, 2, 3⟩ rfl rfl rfl (by decide)
  exact ⟨h.1.trans rfl,
    h.2.2.2.2.2.1 1 ⟨"call-1", 1, "toolB", "not json"⟩ "gateway timeout" rfl rfl,
    h.2.2.2.2.2.2.1 ⟨"call-1", 1, "toolB", "not json"⟩ (by decide)⟩

/-- The cast `String(latestMessage.session_id)` applied to a nullable
column value. -/
def jsStringOfNullable : Option String → String
  | some s => s
  | none => "null"

/-- C3: for a user-bound request with prior turns and no session-reset
command, the session resets (one fresh system turn, session id staying the
pre-allocated one) exactly when now minus the latest turn's timestamp
strictly exceeds 3 hours; at or below the threshold the latest turn's
session id is adopted and the persisted turns are replayed (followed only by
an agent-switch system turn, absent when no override occurred). -/
theorem c3_staleness_boundary (search : Except String GraphitiSearchResponse)
    (is_bot : Option Bool) (first_name username : Option String)
    (user_id : String) (chat_id : Option String)
    (agent_id model system_prompt : String) (ov : Bool) (sessionId : String)
    (rows : List LogRow) (now : Int) (latest : LogRow)
    (hlast : rows.getLast? = some latest) :
    (now - latest.timestamp * 1000 > 3 * 60 * 60 * 1000 →
      setupUserSession search is_bot first_name username user_id chat_id agent_id model
          system_prompt ov none sessionId rows now =
        .ok ⟨sessionId,
          [(resetSessionBlock search is_bot first_name username user_id chat_id
              "from the Graphiti knowledge graph" model system_prompt sessionId agent_id).1],
          [(resetSessionBlock search is_bot first_name username user_id chat_id
              "from the Graphiti knowledge graph" model system_prompt sessionId agent_id).2]⟩)
    ∧ (now - latest.timestamp * 1000 ≤ 3 * 60 * 60 * 1000 →
      ∃ extra elogs,
        setupUserSession search is_bot first_name username user_id chat_id agent_id model
            system_prompt ov none sessionId rows now =
          .ok ⟨jsStringOfNullable latest.session_id, replayRows rows ++ extra, elogs⟩
        ∧ (ov = false → extra = [] ∧ elogs = [])) := by
  constructor
  · intro hgt
    simp only [setupUserSession, hlast]
    rw [if_pos hgt]
  · intro hle
    have hcond : ¬(now - latest.timestamp * 1000 > 3 * 60 * 60 * 1000) := by omega
    cases ov with
    | false =>
      refine ⟨[], [], ?_, fun _ => ⟨rfl, rfl⟩⟩
      simp only [setupUserSession, hlast]
      rw [if_neg hcond]
      simp [jsStringOfNullable]
    | true =>
      refine ⟨[(resetSessionBlock search is_bot first_name username user_id chat_id
          "from the Graphiti knowledge graph" model system_prompt
          (jsStringOfNullable latest.session_id) agent_id).1],
        [(resetSessionBlock search is_bot first_name username user_id chat_id
          "from the Graphiti knowledge graph" model system_prompt
          (jsStringOfNullable latest.session_id) agent_id).2], ?_, by simp⟩
      simp only [setupUserSession, hlast]
      rw [if_neg hcond]
      simp [jsStringOfNullable]

/-- A persisted row whose session is `old-sess`, timestamped at
1700000000s. -/
def c3Row : LogRow :=
  { id := "row-1", model := "gemini-2.5-flash", finish_reason := "", role := "system",
    completion_tokens := 0, prompt_tokens := 0, total_tokens := 0,
    user_id := some "user-1", chat_id := none, session_id := some "old-sess",
    agent_id := some "helper", timestamp := 1700000000,
    message := encodeMessage (.system [.text "You help."]) }

theorem c3_staleness_boundary_witness :
    setupUserSession (.error "unavailable") (some false) (some "Roy") none "user-1" none
        "helper" "gemini-2.5-flash" "You help." false none "fresh-sess" [c3Row]
        (1700000000 * 1000 + 10800001) =
      .ok ⟨"fresh-sess",
        [(resetSessionBlock (.error "unavailable") (some false) (some "Roy") none "user-1" none
            "from the Graphiti knowledge graph" "gemini-2.5-flash" "You help."
            "fresh-sess" "helper").1],
        [(resetSessionBlock (.error "unavailable") (some false) (some "Roy") none "user-1" none
            "from the Graphiti knowledge graph" "gemini-2.5-flash" "You help."
            "fresh-sess" "helper").2]⟩ :=
  (c3_staleness_boundary (.error "unavailable") (some false) (some "Roy") none "user-1" none
    "helper" "gemini-2.5-flash" "You help." false "fresh-sess" [c3Row]
    (1700000000 * 1000 + 10800001) c3Row (by decide)).1 (by decide)

theorem findGroupsF_of_no_bracket :
    ∀ (fuel : Nat) (l : List Char), '[' ∉ l → findGroupsF fuel l = [] := by
  intro fuel
  induction fuel with
  | zero => intro l _; rfl
  | succ f ih =>
    intro l hl
    cases l with
    | nil => rfl
    | cons c cs =>
      simp only [List.mem_cons, not_or] at hl
      have hc : ¬c = '[' := fun hc => hl.1 hc.symm
      simp only [findGroupsF, if_neg hc]
      exact ih cs hl.2

theorem splitAtRB_no_rb (inside t : List Char) (hin : ']' ∉ inside) :
    splitAtRB (inside ++ ']' :: t) = (inside, ']' :: t) := by
  induction inside with
  | nil => simp [splitAtRB]
  | cons c cs ih =>
    simp only [List.mem_cons, not_or] at hin
    have hc : ¬c = ']' := fun hc => hin.1 hc.symm
    simp only [List.cons_append, splitAtRB, if_neg hc, List.append_eq]
    rw [ih hin.2]

theorem findGroupsF_single :
    ∀ (s : List Char) (fuel : Nat) (inside t : List Char),
      '[' ∉ s → '[' ∉ t → ']' ∉ inside → inside ≠ [] →
      (s ++ '[' :: (inside ++ ']' :: t)).length < fuel →
      findGroupsF fuel (s ++ '[' :: (inside ++ ']' :: t)) = [inside] := by
  intro s
  induction s with
  | nil =>
    intro fuel inside t _ ht hin hne hfuel
    cases fuel with
    | zero => simp at hfuel
    | succ f =>
      simp only [List.nil_append, findGroupsF, if_pos rfl, splitAtRB_no_rb inside t hin,
        if_neg hne]
      simp [findGroupsF_of_no_bracket f t ht]
  | cons c cs ih =>
    intro fuel inside t hs ht hin hne hfuel
    simp only [List.mem_cons, not_or] at hs
    cases fuel with
    | zero => simp at hfuel
    | succ f =>
      have hc : ¬c = '[' := fun hc => hs.1 hc.symm
      simp only [List.cons_append, findGroupsF, if_neg hc, List.append_eq]
      exact ih f inside t hs.2 ht hin hne (by simp at hfuel ⊢; omega)

theorem findGroups_single (s inside t : List Char)
    (hs : '[' ∉ s) (ht : '[' ∉ t) (hin : ']' ∉ inside) (hne : inside ≠ []) :
    findGroups (s ++ '[' :: (inside ++ ']' :: t)) = [inside] :=
  findGroupsF_single s ((s ++ '[' :: (inside ++ ']' :: t)).length + 1) inside t
    hs ht hin hne (Nat.lt_succ_self _)

/-- C9: any text whose (trimmed) content carries a single bracket directive
`[a:Foo]` — in either key casing, with no further bracket characters around
it — parses to the agent-identifier override "Foo" with the value's original
casing preserved. -/
theorem c9_agent_override_casing (raw : String) (s t : List Char) (key : Char)
    (hkey : key = 'a' ∨ key = 'A')
    (hdecomp : trimChars raw.data = s ++ '[' :: ((key :: ':' :: "Foo".data) ++ ']' :: t))
    (hs : '[' ∉ s) (ht : '[' ∉ t) :
    (parseMessage raw).agent_idOverride = some "Foo" := by
  have hin : ']' ∉ (key :: ':' :: "Foo".data) := by
    rcases hkey with h | h <;> subst h <;> decide
  have hne : (key :: ':' :: "Foo".data) ≠ [] := by simp
  unfold parseMessage
  dsimp only
  rw [hdecomp, findGroups_single s (key :: ':' :: "Foo".data) t hs ht hin hne]
  rcases hkey with h | h <;> subst h <;> rfl

theorem c9_agent_override_casing_witness :
    (parseMessage "hi [A:Foo] there").agent_idOverride = some "Foo" :=
  c9_agent_override_casing "hi [A:Foo] there" "hi ".data " there".data 'A'
    (Or.inr rfl) (by decide) (by decide) (by decide)

/-- A sequence of turns persisted through `logConversation` into one session
of one user: each turn is serialized into the `message` column, with the
generated row id and second-resolution timestamp taken from `meta` in
order. -/
def persistTurns (model u s : String) (msgs : List Message)
    (meta : List (String × Int)) : List LogRow :=
  (msgs.zip meta).map (fun mz =>
    logConversation mz.2.1 mz.2.2
      { model := model, role := mz.1.role, message := encodeMessage mz.1,
        user_id := some u, session_id := some s })

theorem tsMono_tail (a : LogRow) (l : List LogRow) (h : tsMono (a :: l) = true) :
    tsMono l = true := by
  cases l with
  | nil => rfl
  | cons b rest =>
    simp only [tsMono, Bool.and_eq_true, decide_eq_true_eq] at h
    exact h.2

theorem tsStrict_tail (a : LogRow) (l : List LogRow) (h : tsStrict (a :: l) = true) :
    tsStrict l = true := by
  cases l with
  | nil => rfl
  | cons b rest =>
    simp only [tsStrict, Bool.and_eq_true, decide_eq_true_eq] at h
    exact h.2

theorem tsMono_head_le (a : LogRow) (l : List LogRow) (h : tsMono (a :: l) = true) :
    ∀ z ∈ l, a.timestamp ≤ z.timestamp := by
  induction l generalizing a with
  | nil => intro z hz; simp at hz
  | cons b rest ih =>
    intro z hz
    simp only [tsMono, Bool.and_eq_true, decide_eq_true_eq] at h
    rcases List.mem_cons.mp hz with hzb | hzr
    · rw [hzb]; exact h.1
    · exact le_trans h.1 (ih b h.2 z hzr)

theorem tsStrict_head_lt (a : LogRow) (l : List LogRow) (h : tsStrict (a :: l) = true) :
    ∀ z ∈ l, a.timestamp < z.timestamp := by
  induction l generalizing a with
  | nil => intro z hz; simp at hz
  | cons b rest ih =>
    intro z hz
    simp only [tsStrict, Bool.and_eq_true, decide_eq_true_eq] at h
    rcases List.mem_cons.mp hz with hzb | hzr
    · rw [hzb]; exact h.1
    · exact lt_trans h.1 (ih b h.2 z hzr)

theorem eq_of_perm_tsMono_tsStrict :
    ∀ (l out : List LogRow), out.Perm l → tsMono out = true → tsStrict l = true →
      out = l := by
  intro l
  induction l with
  | nil => intro out hp _ _; exact hp.eq_nil
  | cons x xs ih =>
    intro out hp hmono hstrict
    cases out with
    | nil => exact absurd hp.symm.eq_nil (by simp)
    | cons y ys =>
      have hyx : y = x := by
        by_contra hne
        have hy_mem : y ∈ x :: xs := hp.subset (List.mem_cons_self y ys)
        have hy_xs : y ∈ xs := by
          rcases List.mem_cons.mp hy_mem with h | h
          · exact absurd h hne
          · exact h
        have hx_mem : x ∈ y :: ys := hp.symm.subset (List.mem_cons_self x xs)
        have hx_ys : x ∈ ys := by
          rcases List.mem_cons.mp hx_mem with h | h
          · exact absurd h.symm hne
          · exact h
        have h1 : x.timestamp < y.timestamp := tsStrict_head_lt x xs hstrict y hy_xs
        have h2 : y.timestamp ≤ x.timestamp := tsMono_head_le y ys hmono x hx_ys
        omega
      rw [hyx] at hp hmono ⊢
      rw [ih ys hp.cons_inv (tsMono_tail x ys hmono) (tsStrict_tail x xs hstrict)]

theorem replayRows_persistTurns (model u s : String) :
    ∀ (msgs : List Message) (meta : List (String × Int)),
      meta.length = msgs.length →
      replayRows (persistTurns model u s msgs meta) = msgs := by
  intro msgs
  induction msgs with
  | nil => intro meta _; rfl
  | cons m ms ih =>
    intro meta hlen
    cases meta with
    | nil => simp at hlen
    | cons p ps =>
      simp only [List.length_cons, Nat.succ.injEq] at hlen
      simp [persistTurns, replayRows, logConversation, decodeMessage_encode] at ih ⊢
      exact ih ps hlen

/-- An assistant turn and the tool turn it requested. -/
def c7TiedMsgs : List Message :=
  [.assistant { content := none, tool_calls := some [⟨"call-9", 0, "toolA", "\x7b\x7d"⟩] },
   .tool (Json.arr [Json.str "ok"]) "call-9"]

/-- The two turns persisted within the same second, so with equal
second-resolution timestamps — as consecutive appends of one request
commonly are, since `logConversation` stamps floor(Date.now()/1000). -/
def c7TiedTable : List LogRow :=
  persistTurns "gemini-2.5-flash" "user-1" "sess-7" c7TiedMsgs
    [("row-x", 100), ("row-y", 100)]

/-- C7 counterexample: with equal second-resolution timestamps, "timestamp
order" does not determine the replay order — the reversed row list is an
admissible result of getLatestConversation for the same table, and replaying
it yields the two persisted turns in the opposite order, so neither the
content sequence nor the role sequence is reproduced. -/
theorem c7_counterexample_tied_timestamps :
    getLatestConversation c7TiedTable "user-1" c7TiedTable.reverse
    ∧ replayRows c7TiedTable.reverse ≠ c7TiedMsgs
    ∧ (replayRows c7TiedTable.reverse).map Message.role ≠ c7TiedMsgs.map Message.role := by
  decide

/-- C7 (amended): a conversation of N turns persisted via logConversation
(one row per turn, serialized message payloads) whose second-resolution
timestamps are strictly increasing, later replayed from any admissible
result of reading the session rows in timestamp order (the SQL fixes no
order among equal timestamps, so all timestamp-nondecreasing permutations
are admissible) and parsing the message column of each row, reproduces the
persisted turns — in particular the same ordered sequence of roles and
content. -/
theorem c7_round_trip_strict_timestamps (model u s : String) (msgs : List Message)
    (meta : List (String × Int))
    (hlen : meta.length = msgs.length)
    (hstrict : tsStrict (persistTurns model u s msgs meta) = true)
    (out : List LogRow)
    (hread : getLatestConversation (persistTurns model u s msgs meta) u out) :
    replayRows out = msgs
    ∧ (replayRows out).map Message.role = msgs.map Message.role := by
  suffices h : replayRows out = msgs by exact ⟨h, by rw [h]⟩
  have hall_user : ∀ r ∈ persistTurns model u s msgs meta, r.user_id = some u := by
    intro r hr
    simp only [persistTurns, List.mem_map] at hr
    obtain ⟨mz, _, rfl⟩ := hr
    rfl
  have hall_sess : ∀ r ∈ persistTurns model u s msgs meta, r.session_id = some s := by
    intro r hr
    simp only [persistTurns, List.mem_map] at hr
    obtain ⟨mz, _, rfl⟩ := hr
    rfl
  cases msgs with
  | nil =>
    have htab : persistTurns model u s [] meta = [] := rfl
    rw [htab] at hread
    rcases hread with ⟨_, hout⟩ | ⟨b, hb, _⟩
    · rw [hout]; rfl
    · simp at hb
  | cons m ms =>
    have hfe : (persistTurns model u s (m :: ms) meta).filter
        (fun r => r.user_id == some u) = persistTurns model u s (m :: ms) meta := by
      rw [List.filter_eq_self]
      intro a ha
      simp [hall_user a ha]
    rcases hread with ⟨hfil, _⟩ | ⟨b, hb, _hmax, hperm, hmono⟩
    · rw [hfe] at hfil
      cases meta with
      | nil => simp at hlen
      | cons p ps => simp [persistTurns] at hfil
    · rw [hfe] at hb
      have hbs : b.session_id = some s := hall_sess b hb
      have hfil2 : (persistTurns model u s (m :: ms) meta).filter
          (fun r => r.session_id.isSome && r.session_id == b.session_id) =
          persistTurns model u s (m :: ms) meta := by
        rw [List.filter_eq_self]
        intro a ha
        simp [hall_sess a ha, hbs]
      rw [hfil2] at hperm
      rw [eq_of_perm_tsMono_tsStrict _ out hperm hmono hstrict]
      exact replayRows_persistTurns model u s (m :: ms) meta hlen

/-- A four-turn conversation covering every role. -/
def c7Msgs : List Message :=
  [.system [.text "You help."], .user [.text "hi"],
   .assistant { content := some "hello" }, .tool (Json.arr [Json.str "ok"]) "call-0"]

/-- Row ids and strictly increasing second timestamps for the four turns. -/
def c7Meta : List (String × Int) :=
  [("row-a", 100), ("row-b", 101), ("row-c", 102), ("row-d", 103)]

theorem c7_round_trip_strict_timestamps_witness :
    replayRows (persistTurns "gemini-2.5-flash" "user-1" "sess-7" c7Msgs c7Meta) = c7Msgs :=
  (c7_round_trip_strict_timestamps "gemini-2.5-flash" "user-1" "sess-7" c7Msgs c7Meta
    (by decide) (by decide)
    (persistTurns "gemini-2.5-flash" "user-1" "sess-7" c7Msgs c7Meta) (by decide)).1

theorem execToolCalls_logs_shape (ctx : LoopCtx) :
    ∀ (calls : List ToolCall) (k : Nat) (p : LogParams),
      p ∈ (execToolCalls ctx k calls).1 →
      p.role = "tool" ∧ ∃ c i, p.message = encodeMessage (.tool c i) := by
  intro calls
  induction calls with
  | nil => intro k p hp; simp [execToolCalls] at hp
  | cons call cs ih =>
    intro k p hp
    simp only [execToolCalls, List.mem_cons] at hp
    rcases hp with h | h
    · subst h
      exact ⟨rfl, _, _, rfl⟩
    · exact ih (k + 1) p h

theorem llmLoop_logs_shape (ctx : LoopCtx) :
    ∀ (script : List (Except String LLMResponse)) (conv : List Message) (k : Nat)
      (p : LogParams), p ∈ (llmLoop ctx script conv k).2.1 →
      (p.role = "assistant" ∧ ∃ m, p.message = encodeMessage (.assistant m))
      ∨ (p.role = "tool" ∧ ∃ c i, p.message = encodeMessage (.tool c i)) := by
  intro script
  induction script with
  | nil => intro conv k p hp; simp [llmLoop] at hp
  | cons o rest ih =>
    intro conv k p hp
    rcases o with e | response
    · simp [llmLoop] at hp
    · rcases hch : response.choices.head? with _ | choice
      · simp [llmLoop, hch] at hp
      · rcases hu : response.usage with _ | usage
        · simp [llmLoop, hch, hu] at hp
        · simp only [llmLoop, hch, hu] at hp
          split at hp
          · simp only [List.mem_cons, List.mem_append] at hp
            rcases hp with h | h | h
            · exact Or.inl ⟨by rw [h]; rfl, _, by rw [h]; rfl⟩
            · exact Or.inr (execToolCalls_logs_shape ctx _ _ p h)
            · exact ih _ _ p h
          · split at hp
            · simp only [List.mem_singleton] at hp
              exact Or.inl ⟨by rw [hp]; rfl, _, by rw [hp]; rfl⟩
            · simp only [List.mem_cons] at hp
              rcases hp with h | h
              · exact Or.inl ⟨by rw [h]; rfl, _, by rw [h]; rfl⟩
              · exact ih _ _ p h

theorem resetSessionBlock_log_shape (search : Except String GraphitiSearchResponse)
    (is_bot : Option Bool) (first_name username : Option String)
    (user_id : String) (chat_id : Option String)
    (sourcePhrase model system_prompt sessionId agent_id : String) :
    (resetSessionBlock search is_bot first_name username user_id chat_id
        sourcePhrase model system_prompt sessionId agent_id).2.role = "system"
    ∧ ∃ cs, (resetSessionBlock search is_bot first_name username user_id chat_id
        sourcePhrase model system_prompt sessionId agent_id).2.message =
          encodeMessage (.system cs) :=
  ⟨rfl, _, rfl⟩

theorem setupUserSession_logs_shape (search : Except String GraphitiSearchResponse)
    (is_bot : Option Bool) (first_name username : Option String)
    (user_id : String) (chat_id : Option String)
    (agent_id model system_prompt : String) (ov : Bool) (sessionCommand : Option String)
    (sessionId : String) (rows : List LogRow) (now : Int) (out : SessionSetupOut)
    (h : setupUserSession search is_bot first_name username user_id chat_id agent_id model
        system_prompt ov sessionCommand sessionId rows now = .ok out) :
    ∀ p ∈ out.logs, p.role = "system" ∧ ∃ cs, p.message = encodeMessage (.system cs) := by
  unfold setupUserSession at h
  dsimp only at h
  split at h
  · cases Except.ok.inj h
    intro p hp
    simp only [List.mem_singleton] at hp
    subst hp
    exact resetSessionBlock_log_shape ..
  · split at h
    · exact absurd h (fun hh => Except.noConfusion hh)
    · split at h
      · cases Except.ok.inj h
        intro p hp
        simp only [List.mem_singleton] at hp
        subst hp
        exact resetSessionBlock_log_shape ..
      · split at h
        · cases Except.ok.inj h
          intro p hp
          simp only [List.mem_singleton] at hp
          subst hp
          exact resetSessionBlock_log_shape ..
        · cases Except.ok.inj h
          intro p hp
          simp at hp

theorem setupAnonSession_logs_shape (sessionId : String) (sessionRows : List LogRow)
    (model system_prompt agent_id : String) :
    ∀ p ∈ (setupAnonSession sessionId sessionRows model system_prompt agent_id).logs,
      p.role = "system" ∧ ∃ cs, p.message = encodeMessage (.system cs) := by
  unfold setupAnonSession
  split
  · intro p hp
    simp only [List.mem_singleton] at hp
    subst hp
    exact ⟨rfl, _, rfl⟩
  · intro p hp
    simp at hp

theorem handleEvent_logs_shape (env : Env) (event : Event) :
    ∀ p ∈ (handleEvent env event).2,
      p.role = "system"
      ∨ (p.role = "assistant" ∧ ∃ m, p.message = encodeMessage (.assistant m))
      ∨ (p.role = "tool" ∧ ∃ c i, p.message = encodeMessage (.tool c i)) := by
  intro p hp
  unfold handleEvent at hp
  split at hp
  · simp at hp
  · split at hp
    · simp at hp
    · split at hp
      · simp at hp
      · split at hp
        · simp at hp
        · split at hp
          · simp at hp
          · dsimp only at hp
            split at hp
            · simp at hp
            · rename_i s heq
              simp only [List.mem_append, List.mem_singleton] at hp
              rcases hp with (h | h) | h
              · -- a session-phase row
                split at heq
                · exact Or.inl (setupUserSession_logs_shape _ _ _ _ _ _ _ _ _ _ _ _ _ _ _
                    heq p h).1
                · cases Except.ok.inj heq
                  exact Or.inl (setupAnonSession_logs_shape _ _ _ _ _ p h).1
              · subst h
                exact Or.inl rfl
              · exact Or.inr (llmLoop_logs_shape _ _ _ _ p h)

/-- C10: every row the orchestration engine hands to the log store has a
metadata role other than "user" — the assembled user turn is appended with
role "system" (only the role inside its serialized payload remains "user"),
so any logged row whose payload parses back as a user turn carries metadata
role "system". -/
theorem c10_no_user_role_rows (env : Env) (event : Event) (p : LogParams)
    (hp : p ∈ (handleEvent env event).2) :
    p.role ≠ "user"
    ∧ (∀ c, decodeMessage p.message = some (.user c) → p.role = "system") := by
  rcases handleEvent_logs_shape env event p hp with h | h | h
  · exact ⟨by rw [h]; decide, fun _ _ => h⟩
  · refine ⟨by rw [h.1]; decide, ?_⟩
    intro c hdec
    obtain ⟨m, hm⟩ := h.2
    rw [hm, decodeMessage_encode] at hdec
    simp at hdec
  · refine ⟨by rw [h.1]; decide, ?_⟩
    intro c hdec
    obtain ⟨cc, i, hm⟩ := h.2
    rw [hm, decodeMessage_encode] at hdec
    simp at hdec

/-- A model response that stops normally with assistant text, for a
well-behaved run used to exhibit a concrete logged row: an anonymous (no
stable user id) request from a non-automated sender, one model call ending
in a normal stop, delivery succeeding. -/
def c10Response : LLMResponse :=
  { choices := [{ message := { content := some "All done." }, finish_reason := some "stop" }],
    usage := some { completion_tokens := 1, prompt_tokens := 2, total_tokens := 3 } }

/-- The environment of the `c10Event` run. -/
def c10Env : Env :=
  { uuid := "fresh-session-uuid", now := 1700000000000,
    agentLookup := fun a =>
      if a = "helper" then some { system_prompt := some "You help." } else none,
    llmScript := [.ok c10Response],
    episode := .ok () }

/-- The request of the `c10Env` run. -/
def c10Event : Event :=
  { id := "evt-c10", agent_id := some "helper",
    sender := some { source := some "telegram", is_bot := some false,
                     first_name := some "Roy" },
    messages := some [.text "hi there"],
    recipients := some [{ channel := "telegram" }] }

/-- The row that persists the assembled user turn in that run: metadata role
"system", payload role "user". -/
def c10Row : LogParams :=
  { model := "gemini-2.5-flash", role := "system",
    message := encodeMessage (.user [.text "hi there"]),
    session_id := some "fresh-session-uuid", agent_id := some "helper" }

theorem c10_no_user_role_rows_witness :
    c10Row ∈ (handleEvent c10Env c10Event).2 ∧ c10Row.role ≠ "user" :=
  ⟨by decide, (c10_no_user_role_rows c10Env c10Event c10Row (by decide)).1⟩
